import Mathlib

/-!
Formal model of the BAP broadcast-source unit
(subsys/bluetooth/audio/bap_broadcast_source.c).

The C code is shallowly embedded: machine integers become Nat (with explicit
mod-2^w arithmetic where the C arithmetic can wrap), pointers to pool slots
become indices into lists, sys_slist membership becomes Lean lists, and the
global mutable state becomes an explicit state record threaded through the
operations.  External collaborators that are not part of this translation
unit (the iso transport, the codec/QoS validators, the LTV parser of
audio.c, bt_bap_stream_attach) are modelled from the specification and are
marked as such in their doc comments.
-/

set_option autoImplicit false
set_option maxRecDepth 8192

namespace BapBroadcastModel

/-! ### Configuration constants (Kconfig values fixed for the model) -/

/-- CONFIG_BT_BAP_BROADCAST_SRC_COUNT: number of broadcast source slots. -/
def SRC_COUNT : Nat := 2

/-- CONFIG_BT_BAP_BROADCAST_SRC_SUBGROUP_COUNT: subgroup slots per source. -/
def SUBGROUP_COUNT : Nat := 2

/-- CONFIG_BT_BAP_BROADCAST_SRC_STREAM_COUNT: also the value of
BROADCAST_STREAM_CNT in bap_endpoint.h (endpoint slots per source and the
per-source BIS cap, and the per-subgroup stream-parameter cap). -/
def STREAM_COUNT : Nat := 4

/-- BROADCAST_STREAM_CNT from bap_endpoint.h. -/
def BROADCAST_STREAM_CNT : Nat := STREAM_COUNT

/-- CONFIG_BT_AUDIO_CODEC_CFG_MAX_DATA_SIZE (sizeof codec_cfg->data). -/
def MAX_CODEC_DATA_SIZE : Nat := 19

/-- CONFIG_BT_AUDIO_CODEC_CFG_MAX_METADATA_SIZE (sizeof codec_cfg->meta). -/
def MAX_CODEC_META_SIZE : Nat := 19

/-- BT_ISO_BROADCAST_RTN_MAX. -/
def BT_ISO_BROADCAST_RTN_MAX : Nat := 30

/-- BT_HCI_CODING_FORMAT_LC3. -/
def BT_HCI_CODING_FORMAT_LC3 : Nat := 6

/-- BT_UUID_BASIC_AUDIO_VAL (16-bit Basic Audio Announcement UUID). -/
def BT_UUID_BASIC_AUDIO_VAL : Nat := 0x1851

/-- BT_ISO_PACKING_SEQUENTIAL. -/
def BT_ISO_PACKING_SEQUENTIAL : Nat := 0

/-- BT_ISO_PACKING_INTERLEAVED. -/
def BT_ISO_PACKING_INTERLEAVED : Nat := 1

/-- MINIMUM_BASE_SIZE: smallest legal BASE (1 subgroup, 1 BIS, no data). -/
def MINIMUM_BASE_SIZE : Nat := 16

/-! ### Endpoint states -/

/-- The four endpoint states used by the broadcast source
(BT_BAP_EP_STATE_IDLE/QOS_CONFIGURED/ENABLING/STREAMING), in the numeric
order the C code stores them in ep->status.state. -/
inductive EpState
  | idle
  | qosConfigured
  | enabling
  | streaming
deriving DecidableEq, Repr, Inhabited, Fintype

/-- Numeric encoding of the endpoint state, as in the C enum. -/
def EpState.toNat : EpState → Nat
  | .idle => 0
  | .qosConfigured => 1
  | .enabling => 2
  | .streaming => 3

/-- The C macro MAX applied to the numeric state encoding (the linear order
Idle < QosConfigured < Enabling < Streaming). -/
def stMax (a b : EpState) : EpState :=
  if a.toNat ≤ b.toNat then b else a

/-- broadcast_source_set_ep_state: given the endpoint's current state and the
requested state, returns the state stored afterwards.  Transitions outside
the switch's allow-list leave the state unchanged (the C function logs and
returns without notifying the caller). -/
def broadcast_source_set_ep_state (old requested : EpState) : EpState :=
  match old with
  | .idle =>
      if requested = .qosConfigured then requested else old
  | .qosConfigured =>
      if requested = .idle ∨ requested = .enabling then requested else old
  | .enabling =>
      if requested = .streaming ∨ requested = .qosConfigured then requested else old
  | .streaming =>
      if requested = .qosConfigured then requested else old

/-- The six legal edges of the endpoint state machine, exactly as the claim
and spec list them. -/
def allowedEdge (old new : EpState) : Bool :=
  match old, new with
  | .idle, .qosConfigured => true
  | .qosConfigured, .idle => true
  | .qosConfigured, .enabling => true
  | .enabling, .streaming => true
  | .enabling, .qosConfigured => true
  | .streaming, .qosConfigured => true
  | _, _ => false

/-- Claim C6: the endpoint state-transition function changes the state only
along the allowed edges Idle→QosConfigured, QosConfigured→Idle,
QosConfigured→Enabling, Enabling→Streaming, Enabling→QosConfigured and
Streaming→QosConfigured; any other requested transition leaves the state
exactly unchanged (the C function returns void, so no error reaches the
caller in either case). -/
theorem ep_state_transitions_only_allowed_edges :
    ∀ old requested : EpState,
      (allowedEdge old requested = true ∧
        broadcast_source_set_ep_state old requested = requested) ∨
      (allowedEdge old requested = false ∧
        broadcast_source_set_ep_state old requested = old) := by
  decide

/-! ### Codec configurations and the LTV (length-type-value) codec data -/

/-- struct bt_audio_codec_cfg: coding format id, company id, vendor id, the
codec-specific configuration bytes (data/data_len) and the metadata bytes
(meta/meta_len).  The fixed C arrays are modelled by the lists' visible
prefixes; the capacities are MAX_CODEC_DATA_SIZE / MAX_CODEC_META_SIZE. -/
structure CodecCfg where
  id : Nat
  cid : Nat
  vid : Nat
  data : List Nat
  meta : List Nat
deriving DecidableEq, Repr, Inhabited

/-- The all-zero codec configuration (a memset slot). -/
def CodecCfg.zero : CodecCfg := ⟨0, 0, 0, [], []⟩

/-- Modelled from the spec: the LTV walk of bt_audio_data_parse (audio.c, not
part of this translation unit).  Each record is one length byte covering the
type byte plus the value, then the type byte, then the value bytes; a zero
length or a record overrunning the buffer is a parse failure.  Implemented
with a fuel argument (the byte count) so that the recursion is structural. -/
def ltvParseAux : Nat → List Nat → Option (List (Nat × List Nat))
  | _, [] => some []
  | 0, _ :: _ => none
  | _ + 1, _ :: [] => none
  | fuel + 1, l :: t :: rest2 =>
      if l = 0 ∨ rest2.length + 1 < l then none
      else
        (ltvParseAux fuel (rest2.drop (l - 1))).map
          (fun es => (t, rest2.take (l - 1)) :: es)

/-- Parse a byte list as a sequence of LTV records. -/
def ltvParse (bytes : List Nat) : Option (List (Nat × List Nat)) :=
  ltvParseAux bytes.length bytes

/-- Modelled from the spec: bt_audio_valid_ltv, the LTV well-formedness
checker consumed as a pass/fail oracle. -/
def bt_audio_valid_ltv (bytes : List Nat) : Bool :=
  (ltvParse bytes).isSome

/-- Set/overwrite the value of the first record with the given type, or
append a new record (the association-list view of a structured config). -/
def assocSet : List (Nat × List Nat) → Nat → List Nat → List (Nat × List Nat)
  | [], t, v => [(t, v)]
  | (t', v') :: es, t, v =>
      if t' = t then (t', v) :: es else (t', v') :: assocSet es t v

/-- Value of the first record with the given type. -/
def assocGet : List (Nat × List Nat) → Nat → Option (List Nat)
  | [], _ => none
  | (t', v') :: es, t => if t' = t then some v' else assocGet es t

/-- Value of the last record with the given type (the claim's "the override's
value" when the override names a field more than once). -/
def assocGetLast (es : List (Nat × List Nat)) (t : Nat) : Option (List Nat) :=
  assocGet es.reverse t

/-- Re-encode an association list of records as LTV bytes (length and type
are stored as single bytes). -/
def ltvEncode : List (Nat × List Nat) → List Nat
  | [] => []
  | (t, v) :: es => ((v.length + 1) % 256) :: (t % 256) :: v ++ ltvEncode es

/-- Entries whose LTV encoding is faithful: type fits one byte, value fits
the one-byte length (1 + length ≤ 255), value bytes are bytes. -/
def wfEntries (es : List (Nat × List Nat)) : Prop :=
  ∀ e ∈ es, e.1 < 256 ∧ e.2.length ≤ 254 ∧ ∀ b ∈ e.2, b < 256

instance (es : List (Nat × List Nat)) : Decidable (wfEntries es) := by
  unfold wfEntries; infer_instance

/-- Modelled from the spec: bt_audio_codec_cfg_set_val sets/overwrites the
field named by the type in the structured (LTV) view of the config's data.
The fixed-capacity failure of the real helper is not modelled: the spec
describes an overflow failure only for the non-structured append branch. -/
def bt_audio_codec_cfg_set_val (cfg : CodecCfg) (t : Nat) (v : List Nat) : CodecCfg :=
  match ltvParse cfg.data with
  | some es => { cfg with data := ltvEncode (assocSet es t v) }
  | none => cfg

/-- Modelled from the spec: bt_audio_codec_cfg_get_val, the structured field
lookup used to state what the resolver produces. -/
def bt_audio_codec_cfg_get_val (cfg : CodecCfg) (t : Nat) : Option (List Nat) :=
  match ltvParse cfg.data with
  | some es => assocGet es t
  | none => none

/-- The discriminated error results of the unit (the negative errno values
returned by the C code): -EINVAL, -EBADMSG, -ENOMEM, -EMSGSIZE, -EALREADY,
and an error propagated verbatim from the transport collaborator. -/
inductive BapErr
  | invalidArgument
  | invalidState
  | resourceExhausted
  | bufferTooSmall
  | alreadyStopped
  | downstream (code : Nat)
deriving DecidableEq, Repr

/-- update_codec_cfg_data: merge the BIS-level override bytes into a codec
config (which the callers have already made a copy of the subgroup-level
config).  LC3 merges field-by-field through the LTV parser; other formats
append the bytes verbatim, subject to the fixed data capacity. -/
def update_codec_cfg_data (cfg : CodecCfg) (ovData : List Nat) : Except BapErr CodecCfg :=
  if ovData.length > 0 then
    if cfg.id = BT_HCI_CODING_FORMAT_LC3 then
      match ltvParse ovData with
      | none => .error .invalidArgument
      | some es => .ok (es.foldl (fun c e => bt_audio_codec_cfg_set_val c e.1 e.2) cfg)
    else
      if cfg.data.length + ovData.length > MAX_CODEC_DATA_SIZE then
        .error .resourceExhausted
      else
        .ok { cfg with data := cfg.data ++ ovData }
  else
    .ok cfg

/-! ### LTV parser lemmas -/

theorem ltvParseAux_congr :
    ∀ (f1 f2 : Nat) (bytes : List Nat),
      bytes.length ≤ f1 → bytes.length ≤ f2 →
      ltvParseAux f1 bytes = ltvParseAux f2 bytes := by
  intro f1
  induction f1 with
  | zero =>
      intro f2 bytes h1 h2
      cases bytes with
      | nil => cases f2 <;> rfl
      | cons b bs => simp at h1
  | succ n ih =>
      intro f2 bytes h1 h2
      cases bytes with
      | nil => cases f2 <;> rfl
      | cons l rest =>
          cases rest with
          | nil =>
              cases f2 with
              | zero => simp at h2
              | succ m => rfl
          | cons t rest2 =>
              cases f2 with
              | zero => simp at h2
              | succ m =>
                  simp only [ltvParseAux]
                  by_cases hc : l = 0 ∨ rest2.length + 1 < l
                  · simp [hc]
                  · simp only [if_neg hc]
                    have hr1 : rest2.length + 2 ≤ n + 1 := by simpa using h1
                    have hr2 : rest2.length + 2 ≤ m + 1 := by simpa using h2
                    have hd := List.length_drop (l - 1) rest2
                    rw [ih m (rest2.drop (l - 1)) (by omega) (by omega)]

theorem ltvParse_nil : ltvParse ([] : List Nat) = some [] := rfl

theorem ltvParse_cons (l t : Nat) (rest2 : List Nat) :
    ltvParse (l :: t :: rest2) =
      if l = 0 ∨ rest2.length + 1 < l then none
      else (ltvParse (rest2.drop (l - 1))).map
        (fun es => (t, rest2.take (l - 1)) :: es) := by
  show ltvParseAux (rest2.length + 2) (l :: t :: rest2) = _
  simp only [ltvParseAux]
  by_cases hc : l = 0 ∨ rest2.length + 1 < l
  · simp [hc]
  · simp only [if_neg hc]
    have hd := List.length_drop (l - 1) rest2
    rw [ltvParseAux_congr (rest2.length + 1) (rest2.drop (l - 1)).length
      (rest2.drop (l - 1)) (by omega) (by omega)]
    rfl

theorem ltvParse_ltvEncode :
    ∀ es : List (Nat × List Nat), wfEntries es → ltvParse (ltvEncode es) = some es := by
  intro es
  induction es with
  | nil => intro _; rfl
  | cons e es' ih =>
      intro hwf
      obtain ⟨t, v⟩ := e
      obtain ⟨ht1, hv1, hvb1⟩ := hwf (t, v) (by simp)
      have ht2 : t < 256 := ht1
      have hv2 : v.length ≤ 254 := hv1
      have hlen : (v.length + 1) % 256 = v.length + 1 :=
        Nat.mod_eq_of_lt (by omega)
      have ht : t % 256 = t := Nat.mod_eq_of_lt ht2
      show ltvParse (((v.length + 1) % 256) :: ((t % 256) :: (v ++ ltvEncode es'))) = _
      rw [hlen, ht, ltvParse_cons]
      have hc : ¬(v.length + 1 = 0 ∨ (v ++ ltvEncode es').length + 1 < v.length + 1) := by
        simp only [List.length_append]
        omega
      rw [if_neg hc]
      simp only [Nat.add_sub_cancel]
      rw [List.take_left, List.drop_left]
      rw [ih (fun e' he' => hwf e' (List.mem_cons_of_mem _ he'))]
      rfl

theorem ltvParseAux_bounded :
    ∀ (fuel : Nat) (bytes : List Nat) (es : List (Nat × List Nat)),
      (∀ b ∈ bytes, b < 256) → ltvParseAux fuel bytes = some es → wfEntries es := by
  intro fuel
  induction fuel with
  | zero =>
      intro bytes es hb hp
      cases bytes with
      | nil =>
          simp only [ltvParseAux, Option.some.injEq] at hp
          subst hp
          intro e he
          simp at he
      | cons b bs => simp [ltvParseAux] at hp
  | succ n ih =>
      intro bytes es hb hp
      cases bytes with
      | nil =>
          simp only [ltvParseAux, Option.some.injEq] at hp
          subst hp
          intro e he
          simp at he
      | cons l rest =>
          cases rest with
          | nil => simp [ltvParseAux] at hp
          | cons t rest2 =>
              simp only [ltvParseAux] at hp
              by_cases hc : l = 0 ∨ rest2.length + 1 < l
              · rw [if_pos hc] at hp
                exact absurd hp (by simp)
              · rw [if_neg hc] at hp
                cases hrec : ltvParseAux n (rest2.drop (l - 1)) with
                | none => rw [hrec] at hp; simp at hp
                | some es' =>
                    rw [hrec] at hp
                    simp only [Option.map_some', Option.some.injEq] at hp
                    subst hp
                    push_neg at hc
                    have hl : l < 256 := hb l (by simp)
                    have htail : wfEntries es' := by
                      refine ih (rest2.drop (l - 1)) es' ?_ hrec
                      intro b hbmem
                      exact hb b (by
                        simp only [List.mem_cons]
                        right; right
                        exact List.drop_subset _ _ hbmem)
                    intro e he
                    rcases List.mem_cons.mp he with h | h
                    · subst h
                      refine ⟨hb t (by simp), ?_, ?_⟩
                      · show (rest2.take (l - 1)).length ≤ 254
                        have hmin : (rest2.take (l - 1)).length = min (l - 1) rest2.length :=
                          List.length_take (l - 1) rest2
                        omega
                      · intro b hbmem
                        exact hb b (by
                          simp only [List.mem_cons]
                          right; right
                          exact List.take_subset _ _ hbmem)
                    · exact htail e h

theorem ltvParse_bounded (bytes : List Nat) (es : List (Nat × List Nat))
    (hb : ∀ b ∈ bytes, b < 256) (hp : ltvParse bytes = some es) : wfEntries es :=
  ltvParseAux_bounded bytes.length bytes es hb hp

/-! ### Association-list lemmas for the structured merge -/

theorem wfEntries_assocSet :
    ∀ (cs : List (Nat × List Nat)) (t : Nat) (v : List Nat),
      wfEntries cs → t < 256 → v.length ≤ 254 → (∀ b ∈ v, b < 256) →
      wfEntries (assocSet cs t v) := by
  intro cs
  induction cs with
  | nil =>
      intro t v _ ht hv hvb e he
      simp only [assocSet, List.mem_singleton] at he
      subst he
      exact ⟨ht, hv, hvb⟩
  | cons c cs' ih =>
      intro t v hwf ht hv hvb e he
      obtain ⟨t', v'⟩ := c
      simp only [assocSet] at he
      by_cases hk : t' = t
      · rw [if_pos hk] at he
        rcases List.mem_cons.mp he with h | h
        · subst h
          exact ⟨hk ▸ ht, hv, hvb⟩
        · exact hwf _ (List.mem_cons_of_mem _ h)
      · rw [if_neg hk] at he
        rcases List.mem_cons.mp he with h | h
        · subst h
          exact hwf _ (by simp)
        · exact ih t v (fun e' he' => hwf e' (List.mem_cons_of_mem _ he')) ht hv hvb e h

theorem assocGet_assocSet :
    ∀ (cs : List (Nat × List Nat)) (t0 : Nat) (v0 : List Nat) (t : Nat),
      assocGet (assocSet cs t0 v0) t =
        if t0 = t then some v0 else assocGet cs t := by
  intro cs
  induction cs with
  | nil =>
      intro t0 v0 t
      by_cases h : t0 = t <;> simp [assocSet, assocGet, h]
  | cons c cs' ih =>
      intro t0 v0 t
      obtain ⟨t', v'⟩ := c
      by_cases hk : t' = t0
      · subst hk
        by_cases hkt : t' = t
        · subst hkt
          simp [assocSet, assocGet]
        · simp [assocSet, assocGet, hkt]
      · by_cases hkt : t' = t
        · subst hkt
          have h0 : ¬t0 = t' := fun h => hk h.symm
          simp [assocSet, assocGet, hk, h0]
        · simp [assocSet, assocGet, hk, hkt, ih]

theorem assocGet_append :
    ∀ (xs ys : List (Nat × List Nat)) (t : Nat),
      assocGet (xs ++ ys) t =
        match assocGet xs t with
        | some v => some v
        | none => assocGet ys t := by
  intro xs
  induction xs with
  | nil => intro ys t; rfl
  | cons x xs' ih =>
      intro ys t
      obtain ⟨t', v'⟩ := x
      simp only [List.cons_append, assocGet]
      by_cases hk : t' = t
      · simp [hk]
      · rw [if_neg hk, if_neg hk]
        exact ih ys t

theorem assocGetLast_cons (e : Nat × List Nat) (es : List (Nat × List Nat)) (t : Nat) :
    assocGetLast (e :: es) t =
      match assocGetLast es t with
      | some v => some v
      | none => if e.1 = t then some e.2 else none := by
  unfold assocGetLast
  rw [List.reverse_cons, assocGet_append]
  cases assocGet es.reverse t with
  | none =>
      simp only []
      obtain ⟨t', v'⟩ := e
      simp [assocGet]
  | some v => rfl

theorem assocGet_foldAssoc :
    ∀ (es cs : List (Nat × List Nat)) (t : Nat),
      assocGet (es.foldl (fun m e => assocSet m e.1 e.2) cs) t =
        match assocGetLast es t with
        | some v => some v
        | none => assocGet cs t := by
  intro es
  induction es with
  | nil => intro cs t; rfl
  | cons e es' ih =>
      intro cs t
      rw [List.foldl_cons, ih, assocGetLast_cons]
      cases assocGetLast es' t with
      | some v => rfl
      | none =>
          simp only []
          rw [assocGet_assocSet]
          by_cases hk : e.1 = t
          · simp [hk]
          · simp [hk]

theorem set_val_eq (cfg : CodecCfg) (cs : List (Nat × List Nat)) (t : Nat) (v : List Nat)
    (hp : ltvParse cfg.data = some cs) :
    bt_audio_codec_cfg_set_val cfg t v = { cfg with data := ltvEncode (assocSet cs t v) } := by
  unfold bt_audio_codec_cfg_set_val
  rw [hp]

theorem foldSetVals_spec :
    ∀ (es : List (Nat × List Nat)) (cfg : CodecCfg) (cs : List (Nat × List Nat)),
      ltvParse cfg.data = some cs → wfEntries cs → wfEntries es →
      (es.foldl (fun c e => bt_audio_codec_cfg_set_val c e.1 e.2) cfg).id = cfg.id ∧
      (es.foldl (fun c e => bt_audio_codec_cfg_set_val c e.1 e.2) cfg).cid = cfg.cid ∧
      (es.foldl (fun c e => bt_audio_codec_cfg_set_val c e.1 e.2) cfg).vid = cfg.vid ∧
      (es.foldl (fun c e => bt_audio_codec_cfg_set_val c e.1 e.2) cfg).meta = cfg.meta ∧
      ltvParse (es.foldl (fun c e => bt_audio_codec_cfg_set_val c e.1 e.2) cfg).data =
        some (es.foldl (fun m e => assocSet m e.1 e.2) cs) := by
  intro es
  induction es with
  | nil =>
      intro cfg cs hp _ _
      exact ⟨rfl, rfl, rfl, rfl, hp⟩
  | cons e es' ih =>
      intro cfg cs hp hwfc hwfe
      have he := hwfe e (by simp)
      have hwfset : wfEntries (assocSet cs e.1 e.2) :=
        wfEntries_assocSet cs e.1 e.2 hwfc he.1 he.2.1 he.2.2
      have hstep := set_val_eq cfg cs e.1 e.2 hp
      simp only [List.foldl_cons]
      rw [hstep]
      have hp2 : ltvParse ({ cfg with data := ltvEncode (assocSet cs e.1 e.2) } : CodecCfg).data
          = some (assocSet cs e.1 e.2) := ltvParse_ltvEncode _ hwfset
      have hrest := ih { cfg with data := ltvEncode (assocSet cs e.1 e.2) }
        (assocSet cs e.1 e.2) hp2 hwfset
        (fun e' he' => hwfe e' (List.mem_cons_of_mem _ he'))
      exact ⟨hrest.1, hrest.2.1, hrest.2.2.1, hrest.2.2.2.1, hrest.2.2.2.2⟩

/-- The behaviour claimed for the codec-config resolver, at a given subgroup
config (already copied into the resolved slot by the caller), override byte
list and structured view of the config's data: empty override copies, LC3
merges field-by-field with BIS-level values winning and parse failure
aborting with InvalidArgument, and any other format appends verbatim with
ResourceExhausted (not InvalidArgument) on capacity overflow. -/
def resolverSpec (cfg : CodecCfg) (ov : List Nat) : Prop :=
  (ov = [] → update_codec_cfg_data cfg ov = .ok cfg) ∧
  (cfg.id ≠ BT_HCI_CODING_FORMAT_LC3 → ov ≠ [] →
    cfg.data.length + ov.length > MAX_CODEC_DATA_SIZE →
    update_codec_cfg_data cfg ov = .error .resourceExhausted) ∧
  (cfg.id ≠ BT_HCI_CODING_FORMAT_LC3 → ov ≠ [] →
    cfg.data.length + ov.length ≤ MAX_CODEC_DATA_SIZE →
    update_codec_cfg_data cfg ov = .ok { cfg with data := cfg.data ++ ov }) ∧
  (cfg.id = BT_HCI_CODING_FORMAT_LC3 → ltvParse ov = none →
    update_codec_cfg_data cfg ov = .error .invalidArgument) ∧
  (cfg.id = BT_HCI_CODING_FORMAT_LC3 → ∀ es, ltvParse ov = some es →
    ∃ r, update_codec_cfg_data cfg ov = .ok r ∧
      r.id = cfg.id ∧ r.cid = cfg.cid ∧ r.vid = cfg.vid ∧ r.meta = cfg.meta ∧
      ∀ t, bt_audio_codec_cfg_get_val r t =
        (match assocGetLast es t with
         | some v => some v
         | none => bt_audio_codec_cfg_get_val cfg t))

/-- Claim C4: the resolved per-stream codec config is a copy of the subgroup
config when the override is empty; for LC3 it is the copy with each field
named by a TLV entry of the override set to the override's value (the
BIS-level value wins, TLV parse failure aborts with InvalidArgument); for
any other format the override bytes are appended verbatim, failing with
ResourceExhausted and without a partial append when the concatenation would
exceed the fixed per-config data capacity.  The LTV parser and field setter
live outside this translation unit and are modelled from the spec. -/
theorem update_codec_cfg_data_resolves
    (cfg : CodecCfg) (ov : List Nat) (cs : List (Nat × List Nat))
    (hb : ∀ b ∈ ov, b < 256)
    (hcs : ltvParse cfg.data = some cs) (hwf : wfEntries cs) :
    resolverSpec cfg ov := by
  refine ⟨?_, ?_, ?_, ?_, ?_⟩
  · intro h
    subst h
    rfl
  · intro hid hne hgt
    have hpos : 0 < ov.length := List.length_pos.mpr hne
    unfold update_codec_cfg_data
    rw [if_pos hpos, if_neg hid, if_pos hgt]
  · intro hid hne hle
    have hpos : 0 < ov.length := List.length_pos.mpr hne
    have hngt : ¬cfg.data.length + ov.length > MAX_CODEC_DATA_SIZE := by omega
    unfold update_codec_cfg_data
    rw [if_pos hpos, if_neg hid, if_neg hngt]
  · intro hid hnone
    have hne : ov ≠ [] := by
      intro h
      subst h
      simp [ltvParse_nil] at hnone
    have hpos : 0 < ov.length := List.length_pos.mpr hne
    unfold update_codec_cfg_data
    rw [if_pos hpos, if_pos hid, hnone]
  · intro hid es hes
    by_cases hov : ov = []
    · subst hov
      rw [ltvParse_nil] at hes
      obtain rfl : ([] : List (Nat × List Nat)) = es := Option.some.injEq _ _ ▸ by
        simpa using hes
      refine ⟨cfg, rfl, rfl, rfl, rfl, rfl, ?_⟩
      intro t
      rfl
    · have hpos : 0 < ov.length := List.length_pos.mpr hov
      have hwfes : wfEntries es := ltvParse_bounded ov es hb hes
      have hfold := foldSetVals_spec es cfg cs hcs hwf hwfes
      refine ⟨es.foldl (fun c e => bt_audio_codec_cfg_set_val c e.1 e.2) cfg, ?_,
        hfold.1, hfold.2.1, hfold.2.2.1, hfold.2.2.2.1, ?_⟩
      · unfold update_codec_cfg_data
        rw [if_pos hpos, if_pos hid, hes]
      · intro t
        simp only [bt_audio_codec_cfg_get_val, hfold.2.2.2.2, hcs, assocGet_foldAssoc]

/-- Concrete LC3 subgroup config used to exercise the resolver claim. -/
def c4cfg : CodecCfg := ⟨BT_HCI_CODING_FORMAT_LC3, 0, 0, [2, 1, 3], [9]⟩

/-- Concrete BIS-level override bytes: sets field 1 to 7 and field 2 to 9. -/
def c4ov : List Nat := [2, 1, 7, 2, 2, 9]

/-- Structured view of c4cfg's data. -/
def c4cs : List (Nat × List Nat) := [(1, [3])]

theorem update_codec_cfg_data_resolves_witness :
    (∀ b ∈ c4ov, b < 256) ∧ ltvParse c4cfg.data = some c4cs ∧ wfEntries c4cs ∧
      resolverSpec c4cfg c4ov :=
  ⟨by decide, by decide, by decide,
    update_codec_cfg_data_resolves c4cfg c4ov c4cs (by decide) (by decide) (by decide)⟩

/-! ### The data model: streams, endpoints, subgroups, sources, pools -/

/-- struct bt_bap_qos_cfg (by value; the C code shares it by pointer). -/
structure QosCfg where
  interval : Nat
  framing : Nat
  phy : Nat
  sdu : Nat
  rtn : Nat
  latency : Nat
  pd : Nat
deriving DecidableEq, Repr

instance : Inhabited QosCfg := ⟨⟨0, 0, 0, 0, 0, 0, 0⟩⟩

/-- struct bt_audio_broadcast_stream_data: the retained BIS-level override
bytes (the list is the visible data_len-prefix of the fixed array). -/
structure StreamDataSlot where
  data : List Nat
deriving DecidableEq, Repr

/-- What a stream's codec_cfg pointer can reference: an application-owned
codec config (create stores the subgroup param's config when the resolved
slots are compiled out) or a resolved per-BIS slot of a source. -/
inductive CfgRef
  | appObj (c : CodecCfg)
  | slot (srcIdx bis : Nat)
deriving DecidableEq, Repr

/-- struct bt_bap_stream, restricted to the fields this unit reads or
writes: the endpoint binding (an index into the owning source's endpoint
pool), the codec-config pointer, the QoS pointer and the owning group.
Application callback pointers are not modelled. -/
structure BapStream where
  ep : Option Nat
  codecCfg : Option CfgRef
  qos : Option QosCfg
  group : Option Nat
deriving DecidableEq, Repr

/-- A stream with every cross-reference cleared. -/
def cleanStream : BapStream := ⟨none, none, none, none⟩

/-- struct bt_bap_ep, restricted to the fields this unit reads: the state
machine state, the owning stream (NULL marks the pool slot free) and the
iso-channel binding.  The write-only dir and broadcast_source fields are
omitted. -/
structure Ep where
  state : EpState
  stream : Option Nat
  isoBound : Bool
deriving DecidableEq, Repr

/-- A freshly initialised/never-used endpoint slot (broadcast_source_ep_init
produces exactly this). -/
def Ep.freeSlot : Ep := ⟨.idle, none, false⟩

/-- struct bt_bap_broadcast_subgroup: the stream list (ids, insertion order)
and the referenced subgroup-level codec config (held by value here). -/
structure SubgroupSlot where
  streams : List Nat
  codecCfg : Option CodecCfg
deriving DecidableEq, Repr

/-- A subgroup pool slot that has never been used. -/
def SubgroupSlot.empty : SubgroupSlot := ⟨[], none⟩

/-- struct bt_bap_broadcast_source: subgroup list (indices into the
per-source subgroup pool, insertion order), QoS, packing, encryption flag,
broadcast code (16 bytes), BIG handle, resolved per-stream codec-config
slots and the retained per-stream override data, both indexed by global BIS
sequence number. -/
structure SrcStruct where
  subgroups : List Nat
  qos : Option QosCfg
  packing : Nat
  encryption : Bool
  broadcastCode : List Nat
  big : Option Nat
  codecCfgSlots : List CodecCfg
  streamData : List StreamDataSlot
deriving DecidableEq, Repr

/-- The all-zero source struct (a memset slot). -/
def SrcStruct.zero : SrcStruct :=
  ⟨[], none, 0, false, List.replicate 16 0, none,
    List.replicate BROADCAST_STREAM_CNT CodecCfg.zero,
    List.replicate BROADCAST_STREAM_CNT ⟨[]⟩⟩

/-- One broadcast-source slot together with its per-index pools
(broadcast_source_subgroups[i] and broadcast_source_eps[i]). -/
structure SrcCell where
  src : SrcStruct
  sgPool : List SubgroupSlot
  epPool : List Ep
deriving DecidableEq, Repr

/-- A source slot as module init leaves it. -/
def SrcCell.init : SrcCell :=
  ⟨SrcStruct.zero, List.replicate SUBGROUP_COUNT SubgroupSlot.empty,
    List.replicate BROADCAST_STREAM_CNT Ep.freeSlot⟩

/-- The module's global mutable state: the source slots with their pools,
the application's stream objects (indexed by id; a non-null stream pointer
is modelled as an index into this table) and the number of free iso
channels in the shared bap_iso pool. -/
structure GState where
  cells : List SrcCell
  streams : List BapStream
  isoAvail : Nat
deriving DecidableEq, Repr

/-! ### The output buffer and the BASE encoder -/

/-- Modelled from the spec: struct net_buf_simple as an append-only sink
with a fixed capacity; len is the length of data.  The real append
primitives assert tailroom and the encoder performs its own checks exactly
where the C code has them, so the model appends unconditionally. -/
structure NetBufSimple where
  size : Nat
  data : List Nat
deriving DecidableEq, Repr

/-- buf->len. -/
def NetBufSimple.len (b : NetBufSimple) : Nat := b.data.length

/-- net_buf_simple_add_u8. -/
def net_buf_simple_add_u8 (b : NetBufSimple) (v : Nat) : NetBufSimple :=
  { b with data := b.data ++ [v % 256] }

/-- net_buf_simple_add_le16. -/
def net_buf_simple_add_le16 (b : NetBufSimple) (v : Nat) : NetBufSimple :=
  { b with data := b.data ++ [v % 256, v / 256 % 256] }

/-- net_buf_simple_add_le24. -/
def net_buf_simple_add_le24 (b : NetBufSimple) (v : Nat) : NetBufSimple :=
  { b with data := b.data ++ [v % 256, v / 256 % 256, v / 65536 % 256] }

/-- net_buf_simple_add_mem. -/
def net_buf_simple_add_mem (b : NetBufSimple) (bytes : List Nat) : NetBufSimple :=
  { b with data := b.data ++ bytes }

/-- The C expression (buf->size - buf->len): both operands are uint16_t,
the subtraction happens after promotion to int, and every comparison in
encode_base_subgroup converts that int to an unsigned size type (the other
operand is a size_t), so a negative difference compares as a huge value.
For operands below 2^16 this is the wrap-around difference. -/
def sub16 (a b : Nat) : Nat :=
  ((a % 65536) + 65536 - (b % 65536)) % 65536

/-- The BIS loop at the end of encode_base_subgroup: count iterations,
reading stream_data[i] relative to the subgroup's first global stream index
and emitting the 1-based globally sequential BIS index (streams_encoded is
threaded back to the caller by reference). -/
def encodeBisLoop (sd : List StreamDataSlot) :
    Nat → Nat → Nat → NetBufSimple → Bool × Nat × NetBufSimple
  | 0, _, se, buf => (true, se, buf)
  | n + 1, i, se, buf =>
      let bisIndex := se + 1
      if sub16 buf.size buf.len < 2 then (false, se, buf)
      else
        let buf := net_buf_simple_add_u8 buf bisIndex
        if sub16 buf.size buf.len < 1 then (false, se, buf)
        else
          let slot := (sd.getD i ⟨[]⟩)
          let buf := net_buf_simple_add_u8 buf slot.data.length
          if sub16 buf.size buf.len < slot.data.length then (false, se, buf)
          else
            encodeBisLoop sd n (i + 1) (se + 1) (net_buf_simple_add_mem buf slot.data)

/-- encode_base_subgroup.  The seven fixed header bytes (stream count,
codec id, company id, vendor id, config length) are appended without any
capacity check, exactly as in the C code; the variable-length fields and
the per-BIS fields are guarded. -/
def encode_base_subgroup (sg : SubgroupSlot) (sd : List StreamDataSlot) (se : Nat)
    (buf : NetBufSimple) : Bool × Nat × NetBufSimple :=
  let streamCount := sg.streams.length
  let cfg := sg.codecCfg.getD CodecCfg.zero
  let buf := net_buf_simple_add_u8 buf streamCount
  let buf := net_buf_simple_add_u8 buf cfg.id
  let buf := net_buf_simple_add_le16 buf cfg.cid
  let buf := net_buf_simple_add_le16 buf cfg.vid
  let buf := net_buf_simple_add_u8 buf cfg.data.length
  if sub16 buf.size buf.len < cfg.data.length then (false, se, buf)
  else
    let buf := net_buf_simple_add_mem buf cfg.data
    if sub16 buf.size buf.len < 1 then (false, se, buf)
    else
      let buf := net_buf_simple_add_u8 buf cfg.meta.length
      if sub16 buf.size buf.len < cfg.meta.length then (false, se, buf)
      else
        encodeBisLoop sd streamCount 0 se (net_buf_simple_add_mem buf cfg.meta)

/-- The subgroup walk of encode_base, passing &source->stream_data[streams_encoded]
to each subgroup. -/
def encodeSubgroupsLoop (cell : SrcCell) :
    List Nat → Nat → NetBufSimple → Bool × NetBufSimple
  | [], _, buf => (true, buf)
  | j :: rest, se, buf =>
      match encode_base_subgroup (cell.sgPool.getD j SubgroupSlot.empty)
          (cell.src.streamData.drop se) se buf with
      | (false, _, buf') => (false, buf')
      | (true, se', buf') => encodeSubgroupsLoop cell rest se' buf'

/-- encode_base: the minimum-size check (an int comparison in C, so a
negative remaining length does fail it), the fixed header, then the
subgroups. -/
def encode_base (cell : SrcCell) (buf : NetBufSimple) : Bool × NetBufSimple :=
  if (buf.size : Int) - buf.len < MINIMUM_BASE_SIZE then (false, buf)
  else
    let subgroupCount := cell.src.subgroups.length
    let qos := cell.src.qos.getD default
    let buf := net_buf_simple_add_le16 buf BT_UUID_BASIC_AUDIO_VAL
    let buf := net_buf_simple_add_le24 buf qos.pd
    let buf := net_buf_simple_add_u8 buf subgroupCount
    encodeSubgroupsLoop cell cell.src.subgroups 0 buf

/-- A source with two one-stream subgroups and no codec data or metadata:
its BASE needs 26 bytes, while the minimum-size check only guarantees 16. -/
def c9cell : SrcCell :=
  { src := { SrcStruct.zero with
      subgroups := [0, 1],
      qos := some ⟨7500, 0, 1, 100, 2, 10, 40000⟩ }
    sgPool := [⟨[0], some CodecCfg.zero⟩, ⟨[1], some CodecCfg.zero⟩]
    epPool := List.replicate BROADCAST_STREAM_CNT Ep.freeSlot }

/-- Claim C9 (refuted by the code, supporting a code_bug verdict): with a
16-byte buffer and a two-subgroup source, the encoder appends the seven
fixed header bytes of the second subgroup although only three bytes of
capacity remain: it reports success and leaves 26 bytes in a buffer whose
capacity is 16, instead of returning the BufferTooSmall result.  (In the
real code the append primitives assert tailroom, so this input violates
their contract and corrupts memory when assertions are compiled out.) -/
theorem encode_base_overflows_second_subgroup_header :
    (encode_base c9cell ⟨16, []⟩).1 = true ∧
    ((encode_base c9cell ⟨16, []⟩).2).data.length = 26 ∧
    ((encode_base c9cell ⟨16, []⟩).2).size = 16 := by
  decide

/-! ### Validators (external pass/fail oracles) and parameters -/

/-- Modelled from the spec: bt_audio_verify_qos, the QoS structural
validator, consumed as a pass/fail oracle (plausible ISO ranges). -/
def bt_audio_verify_qos (q : QosCfg) : Bool :=
  decide (0x5 ≤ q.interval) && decide (q.interval ≤ 0xFFFFF) &&
  decide (0x5 ≤ q.latency) && decide (q.latency ≤ 0xFA0) &&
  decide (q.pd ≤ 0xFFFFFF) && decide (q.sdu ≤ 0xFFF) &&
  decide (q.framing ≤ 1) && (decide (q.phy = 1) || decide (q.phy = 2) || decide (q.phy = 4))

/-- Modelled from the spec: bt_audio_valid_codec_cfg, the codec-config
structural validator.  The byte-range conditions express that the C fields
are uint8_t/uint16_t values. -/
def bt_audio_valid_codec_cfg (c : CodecCfg) : Bool :=
  decide (c.data.length ≤ MAX_CODEC_DATA_SIZE) &&
  decide (c.meta.length ≤ MAX_CODEC_META_SIZE) &&
  c.data.all (fun b => decide (b < 256)) && c.meta.all (fun b => decide (b < 256)) &&
  decide (c.id < 256) && decide (c.cid < 65536) && decide (c.vid < 65536) &&
  (if c.id = BT_HCI_CODING_FORMAT_LC3 then bt_audio_valid_ltv c.data else true)

/-- struct bt_bap_broadcast_source_stream_param: the application stream (a
non-null pointer, modelled as an index into the stream table) and the
BIS-level override bytes (data/data_len). -/
structure StreamParam where
  stream : Nat
  data : List Nat
deriving DecidableEq, Repr

/-- struct bt_bap_broadcast_source_subgroup_param. -/
structure SubgroupParam where
  stream_params : List StreamParam
  codec_cfg : CodecCfg
deriving DecidableEq, Repr

/-- struct bt_bap_broadcast_source_param. -/
structure SourceParam where
  subgroup_params : List SubgroupParam
  qos : Option QosCfg
  packing : Nat
  encryption : Bool
  broadcast_code : List Nat
deriving DecidableEq, Repr

/-- The per-stream checks of valid_broadcast_source_param. -/
def valid_stream_param (g : GState) (source : Option Nat) (cfgId : Nat)
    (sp : StreamParam) : Bool :=
  decide (sp.stream < g.streams.length) &&
  (let st := g.streams.getD sp.stream cleanStream
   decide (st.group = none) || decide (st.group = source)) &&
  decide (sp.data.length ≤ MAX_CODEC_DATA_SIZE) &&
  sp.data.all (fun b => decide (b < 256)) &&
  (if cfgId = BT_HCI_CODING_FORMAT_LC3 then bt_audio_valid_ltv sp.data else true)

/-- The per-subgroup checks of valid_broadcast_source_param. -/
def valid_subgroup_param (g : GState) (source : Option Nat) (sgp : SubgroupParam) : Bool :=
  decide (1 ≤ sgp.stream_params.length) &&
  decide (sgp.stream_params.length ≤ STREAM_COUNT) &&
  bt_audio_valid_codec_cfg sgp.codec_cfg &&
  sgp.stream_params.all (valid_stream_param g source sgp.codec_cfg.id)

/-- valid_broadcast_source_param. -/
def valid_broadcast_source_param (g : GState) (p : Option SourceParam)
    (source : Option Nat) : Bool :=
  match p with
  | none => false
  | some p =>
      decide (1 ≤ p.subgroup_params.length) &&
      decide (p.subgroup_params.length ≤ SUBGROUP_COUNT) &&
      (decide (p.packing = BT_ISO_PACKING_SEQUENTIAL) ||
        decide (p.packing = BT_ISO_PACKING_INTERLEAVED)) &&
      (match p.qos with
       | none => false
       | some q => bt_audio_verify_qos q && decide (q.rtn ≤ BT_ISO_BROADCAST_RTN_MAX)) &&
      p.subgroup_params.all (valid_subgroup_param g source)

/-! ### State helpers, aggregate state, cleanup, stream setup -/

/-- Read a source cell (a pointer into the static arrays). -/
def getCell (g : GState) (idx : Nat) : SrcCell := g.cells.getD idx SrcCell.init

/-- Replace a source cell. -/
def setCell (g : GState) (idx : Nat) (c : SrcCell) : GState :=
  { g with cells := g.cells.set idx c }

/-- broadcast_source_get_state: the "highest" state over all streams of all
subgroups (a NULL source or an empty subgroup list reports Idle; streams
without an endpoint are skipped). -/
def broadcast_source_get_state (g : GState) (src : Option Nat) : EpState :=
  match src with
  | none => .idle
  | some idx =>
      let cell := getCell g idx
      if cell.src.subgroups.isEmpty then .idle
      else
        cell.src.subgroups.foldl (fun st j =>
          (cell.sgPool.getD j SubgroupSlot.empty).streams.foldl (fun st sid =>
            match (g.streams.getD sid cleanStream).ep with
            | some k => stMax st (cell.epPool.getD k Ep.freeSlot).state
            | none => st) st) .idle

/-- broadcast_source_set_state: request the transition for every endpoint of
every stream of the source (streams with a NULL endpoint would fault in C
and are skipped here; they cannot occur on sources built by this unit). -/
def broadcast_source_set_state (g : GState) (idx : Nat) (st : EpState) : GState :=
  let cell := getCell g idx
  let epPool := cell.src.subgroups.foldl (fun pool j =>
      (cell.sgPool.getD j SubgroupSlot.empty).streams.foldl (fun pool sid =>
        match (g.streams.getD sid cleanStream).ep with
        | some k =>
            pool.set k { (pool.getD k Ep.freeSlot) with
              state := broadcast_source_set_ep_state (pool.getD k Ep.freeSlot).state st }
        | none => pool) pool) cell.epPool
  setCell g idx { cell with epPool := epPool }

/-- One stream of the cleanup walk: unbind the stream's endpoint from its
iso channel (returning the channel to the shared pool) and clear the
stream's ep/codec/qos/group references.  The accumulator is
(stream table, endpoint pool, free iso count). -/
def cleanupStream (a : List BapStream × List Ep × Nat) (sid : Nat) :
    List BapStream × List Ep × Nat :=
  match (a.1.getD sid cleanStream).ep with
  | some k =>
      (a.1.set sid cleanStream,
       a.2.1.set k { (a.2.1.getD k Ep.freeSlot) with stream := none, isoBound := false },
       a.2.2 + 1)
  | none =>
      (a.1.set sid cleanStream, a.2.1, a.2.2)

/-- One subgroup of the cleanup walk: unwind every stream of the slot, then
empty the slot's stream list (the slot's codec_cfg is left as is). -/
def cleanupSubgroup (acc : List BapStream × List Ep × Nat × List SubgroupSlot) (j : Nat) :
    List BapStream × List Ep × Nat × List SubgroupSlot :=
  let slot := acc.2.2.2.getD j SubgroupSlot.empty
  let inner := slot.streams.foldl cleanupStream (acc.1, acc.2.1, acc.2.2.1)
  (inner.1, inner.2.1, inner.2.2, acc.2.2.2.set j { slot with streams := [] })

/-- broadcast_source_cleanup: for each subgroup, unbind every stream's
endpoint from its iso channel, clear the stream's references, empty the
stream list, then zero the source struct.  The subgroup slots' codec_cfg
pointers are not cleared (the C code doesn't touch them). -/
def broadcast_source_cleanup (g : GState) (idx : Nat) : GState :=
  let cell := getCell g idx
  let acc := cell.src.subgroups.foldl cleanupSubgroup
    (g.streams, cell.epPool, g.isoAvail, cell.sgPool)
  { cells := g.cells.set idx { src := SrcStruct.zero, sgPool := acc.2.2.2, epPool := acc.2.1 },
    streams := acc.1, isoAvail := acc.2.2.1 }

/-- broadcast_source_setup_stream: allocate an endpoint slot (ep_init resets
it), allocate and bind an iso channel from the shared pool (modelled from
the spec as a free-channel count), then attach the stream
(bt_bap_stream_attach is modelled from the spec: it sets stream->codec_cfg,
stream->ep and ep->stream) and store the QoS reference. -/
def broadcast_source_setup_stream (g : GState) (idx sid : Nat) (cfgRef : CfgRef)
    (qos : QosCfg) : GState × Option BapErr :=
  let cell := getCell g idx
  match cell.epPool.findIdx? (fun ep => ep.stream.isNone) with
  | none => (g, some .resourceExhausted)
  | some k =>
      let g1 := setCell g idx { cell with epPool := cell.epPool.set k Ep.freeSlot }
      if g1.isoAvail = 0 then
        (g1, some .resourceExhausted)
      else
        let cell1 := getCell g1 idx
        let g2 := setCell g1 idx { cell1 with
          epPool := cell1.epPool.set k ⟨.idle, some sid, true⟩ }
        ({ g2 with
            streams := g2.streams.set sid { (g2.streams.getD sid cleanStream) with
              ep := some k, codecCfg := some cfgRef, qos := some qos },
            isoAvail := g2.isoAvail - 1 }, none)

/-! ### Creation -/

/-- Write one resolved per-stream codec-config slot of a source. -/
def writeCfgSlot (g : GState) (idx bc : Nat) (c : CodecCfg) : GState :=
  let cell := getCell g idx
  setCell g idx { cell with src := { cell.src with
    codecCfgSlots := cell.src.codecCfgSlots.set bc c } }

/-- The inner stream loop of bt_bap_broadcast_source_create.  Returns the
state, the stream and BIS counters, and on failure the error together with
a flag telling whether broadcast_source_cleanup already ran (the
bis_count >= BROADCAST_STREAM_CNT early return is the one path that skips
it). -/
def createStreamsLoop (idx sgSlotIdx : Nat) (sgCodec : CodecCfg) (qos : QosCfg) :
    GState → List StreamParam → Nat → Nat → GState × Nat × Nat × Option (BapErr × Bool)
  | g, [], sc, bc => (g, sc, bc, none)
  | g, sp :: rest, sc, bc =>
      if BROADCAST_STREAM_CNT ≤ bc then
        (g, sc, bc, some (.resourceExhausted, false))
      else
        match update_codec_cfg_data sgCodec sp.data with
        | .error e =>
            let g1 := writeCfgSlot g idx bc sgCodec
            (broadcast_source_cleanup g1 idx, sc, bc, some (e, true))
        | .ok resolved =>
            let g1 := writeCfgSlot g idx bc resolved
            match broadcast_source_setup_stream g1 idx sp.stream (.slot idx bc) qos with
            | (g2, some e) =>
                (broadcast_source_cleanup g2 idx, sc, bc + 1, some (e, true))
            | (g2, none) =>
                let cell2 := getCell g2 idx
                let g3 := setCell g2 idx { cell2 with src := { cell2.src with
                    streamData := cell2.src.streamData.set sc ⟨sp.data⟩ } }
                let cell3 := getCell g3 idx
                let slot3 := cell3.sgPool.getD sgSlotIdx SubgroupSlot.empty
                let g4 := setCell g3 idx { cell3 with sgPool :=
                    (cell3.sgPool.set sgSlotIdx
                      { slot3 with streams := slot3.streams ++ [sp.stream] }) }
                createStreamsLoop idx sgSlotIdx sgCodec qos g4 rest (sc + 1) (bc + 1)

/-- The subgroup loop of bt_bap_broadcast_source_create. -/
def createSubgroupsLoop (idx : Nat) (qos : QosCfg) :
    GState → List SubgroupParam → Nat → Nat → GState × Option (BapErr × Bool)
  | g, [], _, _ => (g, none)
  | g, sgp :: rest, sc, bc =>
      let cell := getCell g idx
      match cell.sgPool.findIdx? (fun s => s.streams.isEmpty) with
      | none => (broadcast_source_cleanup g idx, some (.resourceExhausted, true))
      | some j =>
          let g1 := setCell g idx { cell with
            sgPool := cell.sgPool.set j
              { (cell.sgPool.getD j SubgroupSlot.empty) with codecCfg := some sgp.codec_cfg },
            src := { cell.src with subgroups := cell.src.subgroups ++ [j] } }
          if BROADCAST_STREAM_CNT < sgp.stream_params.length + sc then
            (broadcast_source_cleanup g1 idx, some (.resourceExhausted, true))
          else
            match createStreamsLoop idx j sgp.codec_cfg qos g1 sgp.stream_params sc bc with
            | (g2, _, _, some e) => (g2, some e)
            | (g2, sc', bc', none) => createSubgroupsLoop idx qos g2 rest sc' bc'

/-- bt_bap_broadcast_source_create.  The out_source pointer is modelled by
the last component: none when the pointer is NULL (nothing written),
some none when *out_source holds NULL, some (some idx) when it holds the
new source. -/
def bt_bap_broadcast_source_create (g : GState) (p : Option SourceParam) (outNull : Bool) :
    Except BapErr Nat × GState × Option (Option Nat) :=
  if outNull then (.error .invalidArgument, g, none)
  else
    if valid_broadcast_source_param g p none then
      match p with
      | none => (.error .invalidArgument, g, some none)
      | some p =>
          match g.cells.findIdx? (fun c => c.src.subgroups.isEmpty) with
          | none => (.error .resourceExhausted, g, some none)
          | some idx =>
              match createSubgroupsLoop idx (p.qos.getD default) g p.subgroup_params 0 0 with
              | (g1, some (e, _)) => (.error e, g1, some none)
              | (g1, none) =>
                  let g2 := broadcast_source_set_state g1 idx .qosConfigured
                  let cell := getCell g2 idx
                  let g3 := setCell g2 idx { cell with src := { cell.src with
                      qos := some (p.qos.getD default),
                      packing := p.packing,
                      encryption := p.encryption,
                      broadcastCode :=
                        if p.encryption then (p.broadcast_code ++ List.replicate 16 0).take 16
                        else cell.src.broadcastCode } }
                  (.ok idx, g3, some (some idx))
    else (.error .invalidArgument, g, some none)

/-! ### Reconfiguration -/

/-- The narrowing validation of bt_bap_broadcast_source_reconfig: every
stream named in the params is (by identity) in the corresponding existing
subgroup, the per-subgroup stream-param count does not exceed the
subgroup's stream count, and the subgroup-param count does not exceed the
existing subgroup count.  (For existing subgroups beyond params_count the C
code reads param->params out of bounds; that read is modelled as a default
parameter, which passes these checks vacuously.) -/
def reconfigTopologyOk (g : GState) (idx : Nat) (p : SourceParam) : Bool :=
  let cell := getCell g idx
  let n := cell.src.subgroups.length
  (List.range n).all (fun k =>
    let sgp := p.subgroup_params.getD k ⟨[], CodecCfg.zero⟩
    let slotStreams := (cell.sgPool.getD (cell.src.subgroups.getD k 0) SubgroupSlot.empty).streams
    sgp.stream_params.all (fun sp => slotStreams.contains sp.stream) &&
    decide (sgp.stream_params.length ≤ slotStreams.length)) &&
  decide (p.subgroup_params.length ≤ n)

/-- The inner stream loop of bt_bap_broadcast_source_reconfig: resolve the
codec config into source->codec_cfg[bis_count] (a global, monotonically
increasing index), but store the retained override bytes at stream_idx, the
stream's position within its own subgroup's stream list. -/
def reconfigStreamsLoop (idx sgSlotIdx : Nat) (sgCodec : CodecCfg) :
    GState → List StreamParam → Nat → GState × Nat × Option BapErr
  | g, [], bc => (g, bc, none)
  | g, sp :: rest, bc =>
      if BROADCAST_STREAM_CNT ≤ bc then (g, bc, some .resourceExhausted)
      else
        match update_codec_cfg_data sgCodec sp.data with
        | .error e => (writeCfgSlot g idx bc sgCodec, bc, some e)
        | .ok resolved =>
            let g2 := writeCfgSlot g idx bc resolved
            let cell := getCell g2 idx
            let slotStreams := (cell.sgPool.getD sgSlotIdx SubgroupSlot.empty).streams
            let streamIdx := slotStreams.findIdx (fun s => s = sp.stream)
            let g3 := setCell g2 idx { cell with src := { cell.src with
                streamData := cell.src.streamData.set streamIdx ⟨sp.data⟩ } }
            reconfigStreamsLoop idx sgSlotIdx sgCodec g3 rest (bc + 1)

/-- The subgroup loop of bt_bap_broadcast_source_reconfig: install the new
subgroup-level codec config, run the stream loop, then re-attach every
stream of the subgroup to the codec_cfg pointer left by the loop (the last
resolved slot when at least one stream param was processed). -/
def reconfigSubgroupsLoop (idx : Nat) :
    GState → List SubgroupParam → List Nat → Nat → GState × Nat × Option BapErr
  | g, [], _, bc => (g, bc, none)
  | g, _ :: _, [], bc => (g, bc, some .invalidArgument)
  | g, sgp :: rest, j :: jrest, bc =>
      let cell := getCell g idx
      let g1 := setCell g idx { cell with sgPool :=
          (cell.sgPool.set j
            { (cell.sgPool.getD j SubgroupSlot.empty) with codecCfg := some sgp.codec_cfg }) }
      match reconfigStreamsLoop idx j sgp.codec_cfg g1 sgp.stream_params bc with
      | (g2, bc', some e) => (g2, bc', some e)
      | (g2, bc', none) =>
          let ref : CfgRef :=
            if sgp.stream_params.isEmpty then .appObj sgp.codec_cfg else .slot idx (bc' - 1)
          let streams2 := ((getCell g2 idx).sgPool.getD j SubgroupSlot.empty).streams.foldl
            (fun ss sid => ss.set sid { (ss.getD sid cleanStream) with codecCfg := some ref })
            g2.streams
          reconfigSubgroupsLoop idx { g2 with streams := streams2 } rest jrest bc'

/-- Final phase of reconfig: apply the new QoS to every stream of the
source (the iso-channel QoS copy happens in the transport layer) and store
it on the source. -/
def reconfigApplyQos (g : GState) (idx : Nat) (qos : QosCfg) : GState :=
  let cell := getCell g idx
  let streams2 := cell.src.subgroups.foldl (fun ss j =>
      (cell.sgPool.getD j SubgroupSlot.empty).streams.foldl (fun ss sid =>
          ss.set sid { (ss.getD sid cleanStream) with qos := some qos }) ss) g.streams
  let g1 := { g with streams := streams2 }
  let cell1 := getCell g1 idx
  setCell g1 idx { cell1 with src := { cell1.src with qos := some qos } }

/-- bt_bap_broadcast_source_reconfig. -/
def bt_bap_broadcast_source_reconfig (g : GState) (src : Option Nat)
    (p : Option SourceParam) : Except BapErr Unit × GState :=
  match src with
  | none => (.error .invalidArgument, g)
  | some idx =>
      if valid_broadcast_source_param g p src then
        match p with
        | none => (.error .invalidArgument, g)
        | some p =>
            if broadcast_source_get_state g src = .qosConfigured then
              if reconfigTopologyOk g idx p then
                match reconfigSubgroupsLoop idx g p.subgroup_params
                    (getCell g idx).src.subgroups 0 with
                | (g1, _, some e) => (.error e, g1)
                | (g1, _, none) => (.ok (), reconfigApplyQos g1 idx (p.qos.getD default))
              else (.error .invalidArgument, g)
            else (.error .invalidState, g)
      else (.error .invalidArgument, g)

/-! ### Metadata update, start, stop, delete, get_base -/

/-- bt_bap_broadcast_source_update_metadata.  The meta pointer is modelled
by metaNull together with the byte list (meta_len is its length). -/
def bt_bap_broadcast_source_update_metadata (g : GState) (src : Option Nat)
    (metaNull : Bool) (meta : List Nat) : Except BapErr Unit × GState :=
  match src with
  | none => (.error .invalidArgument, g)
  | some idx =>
      if (metaNull && decide (meta.length ≠ 0)) || (!metaNull && decide (meta.length = 0)) then
        (.error .invalidArgument, g)
      else if MAX_CODEC_META_SIZE < meta.length then
        (.error .invalidArgument, g)
      else if broadcast_source_get_state g src = .streaming then
        let cell := getCell g idx
        let sgPool2 := cell.src.subgroups.foldl (fun pool j =>
            let slot := pool.getD j SubgroupSlot.empty
            pool.set j { slot with codecCfg :=
              match slot.codecCfg with
              | some c => some { c with meta := meta }
              | none => none }) cell.sgPool
        (.ok (), setCell g idx { cell with sgPool := sgPool2 })
      else (.error .invalidState, g)

/-- bt_bap_broadcast_source_start.  The transport collaborator
bt_iso_big_create is a parameter: its result (a BIG handle or a negative
errno, modelled as a code) decides the outcome. -/
def bt_bap_broadcast_source_start (g : GState) (src : Option Nat) (advNull : Bool)
    (bigCreate : Except Nat Nat) : Except BapErr Unit × GState :=
  match src with
  | none => (.error .invalidArgument, g)
  | some idx =>
      if advNull then (.error .invalidArgument, g)
      else if broadcast_source_get_state g src = .qosConfigured then
        let g1 := broadcast_source_set_state g idx .enabling
        match bigCreate with
        | .error e =>
            (.error (.downstream e), broadcast_source_set_state g1 idx .qosConfigured)
        | .ok big =>
            let cell := getCell g1 idx
            (.ok (), setCell g1 idx { cell with src := { cell.src with big := some big } })
      else (.error .invalidState, g)

/-- bt_bap_broadcast_source_stop.  bt_iso_big_terminate is a parameter. -/
def bt_bap_broadcast_source_stop (g : GState) (src : Option Nat)
    (terminate : Except Nat Unit) : Except BapErr Unit × GState :=
  match src with
  | none => (.error .invalidArgument, g)
  | some idx =>
      let st := broadcast_source_get_state g src
      if st = .streaming ∨ st = .enabling then
        if (getCell g idx).src.big = none then (.error .alreadyStopped, g)
        else
          match terminate with
          | .error e => (.error (.downstream e), g)
          | .ok _ => (.ok (), g)
      else (.error .invalidState, g)

/-- bt_bap_broadcast_source_delete. -/
def bt_bap_broadcast_source_delete (g : GState) (src : Option Nat) :
    Except BapErr Unit × GState :=
  match src with
  | none => (.error .invalidArgument, g)
  | some idx =>
      if broadcast_source_get_state g src = .qosConfigured then
        let g1 := broadcast_source_set_state g idx .idle
        (.ok (), broadcast_source_cleanup g1 idx)
      else (.error .invalidState, g)

/-- bt_bap_broadcast_source_get_base. -/
def bt_bap_broadcast_source_get_base (g : GState) (src : Option Nat)
    (buf : Option NetBufSimple) : Except BapErr Unit × GState × Option NetBufSimple :=
  match src with
  | none => (.error .invalidArgument, g, buf)
  | some idx =>
      match buf with
      | none => (.error .invalidArgument, g, none)
      | some b =>
          if broadcast_source_get_state g src = .idle then
            (.error .invalidState, g, some b)
          else
            match encode_base (getCell g idx) b with
            | (false, b') => (.error .bufferTooSmall, g, some b')
            | (true, b') => (.ok (), g, some b')

/-! ### Claim C7: the aggregate state is the maximum endpoint state -/

theorem stMax_idle_left : ∀ a : EpState, stMax .idle a = a := by decide

theorem stMax_idle_right : ∀ a : EpState, stMax a .idle = a := by decide

theorem stMax_assoc :
    ∀ a b c : EpState, stMax (stMax a b) c = stMax a (stMax b c) := by decide

/-- The states of all endpoints of all streams of all subgroups of a
source, in order (streams without an endpoint have none). -/
def epStatesOf (g : GState) (idx : Nat) : List EpState :=
  let cell := getCell g idx
  cell.src.subgroups.foldr (fun j acc =>
    (cell.sgPool.getD j SubgroupSlot.empty).streams.foldr (fun sid acc2 =>
      match (g.streams.getD sid cleanStream).ep with
      | some k => (cell.epPool.getD k Ep.freeSlot).state :: acc2
      | none => acc2) acc) []

/-- The claim's aggregate state: the maximum, under the order
Idle < QosConfigured < Enabling < Streaming, over all endpoint states;
Idle for a null source reference (and hence for an empty list). -/
def aggregateSpec (g : GState) (src : Option Nat) : EpState :=
  match src with
  | none => .idle
  | some idx => (epStatesOf g idx).foldr stMax .idle

theorem innerExtract_append (g : GState) (cell : SrcCell) :
    ∀ (streams : List Nat) (acc : List EpState),
      streams.foldr (fun sid acc2 =>
        match (g.streams.getD sid cleanStream).ep with
        | some k => (cell.epPool.getD k Ep.freeSlot).state :: acc2
        | none => acc2) acc =
      (streams.foldr (fun sid acc2 =>
        match (g.streams.getD sid cleanStream).ep with
        | some k => (cell.epPool.getD k Ep.freeSlot).state :: acc2
        | none => acc2) []) ++ acc := by
  intro streams
  induction streams with
  | nil => intro acc; rfl
  | cons sid rest ih =>
      intro acc
      simp only [List.foldr_cons]
      cases (g.streams.getD sid cleanStream).ep with
      | none => exact ih acc
      | some k => exact congrArg (List.cons _) (ih acc)

theorem foldr_stMax_append :
    ∀ (a b : List EpState),
      (a ++ b).foldr stMax .idle = stMax (a.foldr stMax .idle) (b.foldr stMax .idle) := by
  intro a
  induction a with
  | nil =>
      intro b
      simp [stMax_idle_left]
  | cons x rest ih =>
      intro b
      simp only [List.cons_append, List.foldr_cons, ih, stMax_assoc]

theorem inner_fold_stMax (g : GState) (cell : SrcCell) :
    ∀ (streams : List Nat) (st : EpState),
      streams.foldl (fun st sid =>
        match (g.streams.getD sid cleanStream).ep with
        | some k => stMax st (cell.epPool.getD k Ep.freeSlot).state
        | none => st) st =
      stMax st ((streams.foldr (fun sid acc2 =>
        match (g.streams.getD sid cleanStream).ep with
        | some k => (cell.epPool.getD k Ep.freeSlot).state :: acc2
        | none => acc2) []).foldr stMax .idle) := by
  intro streams
  induction streams with
  | nil => intro st; simp [stMax_idle_right]
  | cons sid rest ih =>
      intro st
      simp only [List.foldl_cons, List.foldr_cons]
      cases (g.streams.getD sid cleanStream).ep with
      | none => exact ih st
      | some k =>
          exact (ih (stMax st (cell.epPool.getD k Ep.freeSlot).state)).trans
            (stMax_assoc st _ _)

theorem outer_fold_stMax (g : GState) (cell : SrcCell) :
    ∀ (sgs : List Nat) (st : EpState),
      sgs.foldl (fun st j =>
        (cell.sgPool.getD j SubgroupSlot.empty).streams.foldl (fun st sid =>
          match (g.streams.getD sid cleanStream).ep with
          | some k => stMax st (cell.epPool.getD k Ep.freeSlot).state
          | none => st) st) st =
      stMax st ((sgs.foldr (fun j acc =>
        (cell.sgPool.getD j SubgroupSlot.empty).streams.foldr (fun sid acc2 =>
          match (g.streams.getD sid cleanStream).ep with
          | some k => (cell.epPool.getD k Ep.freeSlot).state :: acc2
          | none => acc2) acc) []).foldr stMax .idle) := by
  intro sgs
  induction sgs with
  | nil => intro st; simp [stMax_idle_right]
  | cons j rest ih =>
      intro st
      simp only [List.foldl_cons, List.foldr_cons]
      conv_rhs => rw [innerExtract_append g cell, foldr_stMax_append]
      rw [ih, inner_fold_stMax g cell, stMax_assoc]

theorem get_state_eq_aggregate :
    ∀ (g : GState) (src : Option Nat),
      broadcast_source_get_state g src = aggregateSpec g src := by
  intro g src
  cases src with
  | none => rfl
  | some idx =>
      simp only [broadcast_source_get_state, aggregateSpec, epStatesOf]
      by_cases hempty : (getCell g idx).src.subgroups.isEmpty
      · rw [if_pos hempty]
        have hnil : (getCell g idx).src.subgroups = [] := by
          cases h : (getCell g idx).src.subgroups with
          | nil => rfl
          | cons a l => rw [h] at hempty; simp [List.isEmpty] at hempty
        rw [hnil]
        rfl
      · rw [if_neg hempty]
        rw [outer_fold_stMax g (getCell g idx) (getCell g idx).src.subgroups .idle,
          stMax_idle_left]

/-- Claim C7: the state query returns exactly the maximum, under the order
Idle < QosConfigured < Enabling < Streaming, of the states of all endpoints
of all streams of all subgroups; a null source reference and a source with
no subgroups report Idle. -/
theorem get_state_is_max_ep_state :
    ∀ (g : GState) (src : Option Nat),
      broadcast_source_get_state g src = aggregateSpec g src :=
  get_state_eq_aggregate

/-- Decidable equality of results. -/
instance instDecEqExcept {ε α : Type} [DecidableEq ε] [DecidableEq α] :
    DecidableEq (Except ε α) := fun x y =>
  match x, y with
  | .ok a, .ok b =>
      if h : a = b then isTrue (h ▸ rfl) else isFalse (fun hc => h (by injection hc))
  | .error a, .error b =>
      if h : a = b then isTrue (h ▸ rfl) else isFalse (fun hc => h (by injection hc))
  | .ok _, .error _ => isFalse (fun hc => Except.noConfusion hc)
  | .error _, .ok _ => isFalse (fun hc => Except.noConfusion hc)

/-! ### Concrete states and parameters used by the evaluation theorems -/

/-- The module's state right after init: all slots zeroed, two application
stream objects, four free iso channels. -/
def gInit : GState :=
  ⟨List.replicate SRC_COUNT SrcCell.init, List.replicate 2 cleanStream, 4⟩

/-- A QoS accepted by the validator. -/
def qosA : QosCfg := ⟨7500, 0, 1, 100, 2, 10, 40000⟩

/-- A vendor-format (non-LC3) codec config accepted by the validator. -/
def codecA : CodecCfg := ⟨255, 0, 0, [], []⟩

/-- Create parameters: two subgroups with one stream each, with BIS-level
override bytes 0xAA (stream 0, subgroup 1) and 0xBB (stream 1, subgroup 2). -/
def pCreate : SourceParam :=
  ⟨[⟨[⟨0, [0xAA]⟩], codecA⟩, ⟨[⟨1, [0xBB]⟩], codecA⟩], some qosA, 0, false, []⟩

/-- Reconfig parameters addressing the same topology, with new override
bytes 0x11 (stream 0, subgroup 1) and 0x22 (stream 1, subgroup 2). -/
def pReconfig : SourceParam :=
  ⟨[⟨[⟨0, [0x11]⟩], codecA⟩, ⟨[⟨1, [0x22]⟩], codecA⟩], some qosA, 0, false, []⟩

/-- Claim C2 (refuted by the code, supporting a code_bug verdict): create
stores the override bytes at the global BIS index (stream 1 of the second
subgroup lands in stream_data[1]), but reconfig stores them at the stream's
position within its own subgroup: after reconfiguring both streams, the
second subgroup's override bytes 0x22 overwrite stream_data[0] (the first
subgroup's slot, which had just received 0x11) and stream_data[1] keeps the
stale create-time bytes 0xBB — while the BASE encoder keeps reading
stream_data at the global index. -/
theorem reconfig_stores_stream_data_at_subgroup_local_index :
    (bt_bap_broadcast_source_create gInit (some pCreate) false).1 = .ok 0 ∧
    (getCell (bt_bap_broadcast_source_create gInit (some pCreate) false).2.1 0).src.streamData.getD 0 ⟨[]⟩ = ⟨[0xAA]⟩ ∧
    (getCell (bt_bap_broadcast_source_create gInit (some pCreate) false).2.1 0).src.streamData.getD 1 ⟨[]⟩ = ⟨[0xBB]⟩ ∧
    (bt_bap_broadcast_source_reconfig
      (bt_bap_broadcast_source_create gInit (some pCreate) false).2.1 (some 0)
      (some pReconfig)).1 = .ok () ∧
    (getCell (bt_bap_broadcast_source_reconfig
      (bt_bap_broadcast_source_create gInit (some pCreate) false).2.1 (some 0)
      (some pReconfig)).2 0).src.streamData.getD 0 ⟨[]⟩ = ⟨[0x22]⟩ ∧
    (getCell (bt_bap_broadcast_source_reconfig
      (bt_bap_broadcast_source_create gInit (some pCreate) false).2.1 (some 0)
      (some pReconfig)).2 0).src.streamData.getD 1 ⟨[]⟩ = ⟨[0xBB]⟩ := by
  decide

/-! ### Claim C10: the out_source pointer discipline of create -/

theorem create_result_cases (g : GState) (p : Option SourceParam) :
    (∃ e g1, bt_bap_broadcast_source_create g p false = (.error e, g1, some none)) ∨
    (∃ i g1, bt_bap_broadcast_source_create g p false = (.ok i, g1, some (some i))) := by
  unfold bt_bap_broadcast_source_create
  rw [if_neg (by simp : ¬(false = true))]
  split
  · split
    · exact .inl ⟨_, _, rfl⟩
    · split
      · exact .inl ⟨_, _, rfl⟩
      · split
        · exact .inl ⟨_, _, rfl⟩
        · exact .inr ⟨_, _, rfl⟩
  · exact .inl ⟨_, _, rfl⟩

/-- Claim C10: bt_bap_broadcast_source_create writes NULL to *out_source
right after the out_source NULL check and before validation/allocation, and
writes the handle only on the success path: a NULL out_source pointer is
rejected with InvalidArgument with nothing written, every error return
leaves *out_source = NULL, and the success return leaves the new handle. -/
theorem create_out_pointer_discipline :
    ∀ (g : GState) (p : Option SourceParam),
      (bt_bap_broadcast_source_create g p true = (.error .invalidArgument, g, none)) ∧
      (∀ e g' out, bt_bap_broadcast_source_create g p false = (.error e, g', out) →
        out = some none) ∧
      (∀ i g' out, bt_bap_broadcast_source_create g p false = (.ok i, g', out) →
        out = some (some i)) := by
  intro g p
  refine ⟨rfl, ?_, ?_⟩
  · intro e g' out h
    rcases create_result_cases g p with ⟨e1, g1, hc⟩ | ⟨i1, g1, hc⟩
    · rw [hc] at h
      exact (congrArg (fun x => x.2.2) h).symm
    · rw [hc] at h
      exact absurd (congrArg (fun x => x.1) h) (by simp)
  · intro i g' out h
    rcases create_result_cases g p with ⟨e1, g1, hc⟩ | ⟨i1, g1, hc⟩
    · rw [hc] at h
      exact absurd (congrArg (fun x => x.1) h) (by simp)
    · rw [hc] at h
      have h1 : (Except.ok i1 : Except BapErr Nat) = .ok i := congrArg (fun x => x.1) h
      have h2 : i1 = i := by injection h1
      subst h2
      exact (congrArg (fun x => x.2.2) h).symm

theorem create_out_pointer_discipline_witness :
    (bt_bap_broadcast_source_create gInit (some pCreate) false).2.2 = some (some 0) := by
  have h1 : (bt_bap_broadcast_source_create gInit (some pCreate) false).1 = .ok 0 := by decide
  have h : bt_bap_broadcast_source_create gInit (some pCreate) false =
      (.ok 0, (bt_bap_broadcast_source_create gInit (some pCreate) false).2.1,
        (bt_bap_broadcast_source_create gInit (some pCreate) false).2.2) := by
    calc bt_bap_broadcast_source_create gInit (some pCreate) false
        = ((bt_bap_broadcast_source_create gInit (some pCreate) false).1,
           (bt_bap_broadcast_source_create gInit (some pCreate) false).2.1,
           (bt_bap_broadcast_source_create gInit (some pCreate) false).2.2) := rfl
      _ = _ := by rw [h1]
  exact (create_out_pointer_discipline gInit (some pCreate)).2.2 0
    (bt_bap_broadcast_source_create gInit (some pCreate) false).2.1
    (bt_bap_broadcast_source_create gInit (some pCreate) false).2.2 h

/-! ### Claim C5: aggregate-state guards of the lifecycle operations -/

/-- Claim C5: for every non-null source, each lifecycle operation is
rejected with InvalidState and performs no state mutation unless the
aggregate state permits it: start requires QosConfigured; stop requires
Streaming or Enabling and additionally a non-null group handle
(AlreadyStopped otherwise); delete and reconfig require QosConfigured
(reconfig validates its parameters first, so the guard is stated for
parameter sets passing validation); update_metadata requires Streaming
(stated for well-formed metadata, which is checked first); get_base
requires any state other than Idle. -/
theorem lifecycle_state_guards :
    ∀ (g : GState) (idx : Nat),
      (∀ bigRes, broadcast_source_get_state g (some idx) ≠ .qosConfigured →
        bt_bap_broadcast_source_start g (some idx) false bigRes = (.error .invalidState, g)) ∧
      (∀ term, broadcast_source_get_state g (some idx) ≠ .streaming →
        broadcast_source_get_state g (some idx) ≠ .enabling →
        bt_bap_broadcast_source_stop g (some idx) term = (.error .invalidState, g)) ∧
      (∀ term, (broadcast_source_get_state g (some idx) = .streaming ∨
          broadcast_source_get_state g (some idx) = .enabling) →
        (getCell g idx).src.big = none →
        bt_bap_broadcast_source_stop g (some idx) term = (.error .alreadyStopped, g)) ∧
      (broadcast_source_get_state g (some idx) ≠ .qosConfigured →
        bt_bap_broadcast_source_delete g (some idx) = (.error .invalidState, g)) ∧
      (∀ p, valid_broadcast_source_param g (some p) (some idx) = true →
        broadcast_source_get_state g (some idx) ≠ .qosConfigured →
        bt_bap_broadcast_source_reconfig g (some idx) (some p) = (.error .invalidState, g)) ∧
      (∀ meta : List Nat, meta ≠ [] → meta.length ≤ MAX_CODEC_META_SIZE →
        broadcast_source_get_state g (some idx) ≠ .streaming →
        bt_bap_broadcast_source_update_metadata g (some idx) false meta =
          (.error .invalidState, g)) ∧
      (∀ b : NetBufSimple, broadcast_source_get_state g (some idx) = .idle →
        bt_bap_broadcast_source_get_base g (some idx) (some b) =
          (.error .invalidState, g, some b)) := by
  intro g idx
  refine ⟨?_, ?_, ?_, ?_, ?_, ?_, ?_⟩
  · intro bigRes hst
    simp only [bt_bap_broadcast_source_start]
    rw [if_neg (by simp : ¬(false = true)), if_neg hst]
  · intro term h1 h2
    simp only [bt_bap_broadcast_source_stop]
    rw [if_neg (not_or.mpr ⟨h1, h2⟩)]
  · intro term hor hbig
    simp only [bt_bap_broadcast_source_stop]
    rw [if_pos hor, if_pos hbig]
  · intro hst
    simp only [bt_bap_broadcast_source_delete]
    rw [if_neg hst]
  · intro p hv hst
    simp only [bt_bap_broadcast_source_reconfig]
    rw [if_pos hv, if_neg hst]
  · intro meta hne hlen hst
    have hlen0 : meta.length ≠ 0 := fun h => hne (List.length_eq_zero.mp h)
    simp only [bt_bap_broadcast_source_update_metadata]
    rw [if_neg (by simp [hlen0] : ¬(((false && decide (meta.length ≠ 0)) ||
      (!false && decide (meta.length = 0))) = true))]
    rw [if_neg (by omega : ¬MAX_CODEC_META_SIZE < meta.length), if_neg hst]
  · intro b hst
    simp only [bt_bap_broadcast_source_get_base]
    rw [if_pos hst]

/-- A source slot whose single endpoint is Enabling with no BIG handle
(reachable: create then start, before the BIG-started event). -/
def cellEnab : SrcCell :=
  { src := { SrcStruct.zero with subgroups := [0], qos := some qosA }
    sgPool := [⟨[0], some codecA⟩, SubgroupSlot.empty]
    epPool := [⟨.enabling, some 0, true⟩, Ep.freeSlot, Ep.freeSlot, Ep.freeSlot] }

/-- A global state holding that source. -/
def gEnab : GState :=
  ⟨[cellEnab, SrcCell.init],
   [⟨some 0, some (.slot 0 0), some qosA, none⟩, cleanStream], 3⟩

/-- Reconfig params that pass validation against gEnab. -/
def pReconfigEnab : SourceParam :=
  ⟨[⟨[⟨0, []⟩], codecA⟩], some qosA, 0, false, []⟩

theorem lifecycle_state_guards_witness :
    (bt_bap_broadcast_source_start gInit (some 0) false (.ok 1) =
      (.error .invalidState, gInit)) ∧
    (bt_bap_broadcast_source_stop gInit (some 0) (.ok ()) =
      (.error .invalidState, gInit)) ∧
    (bt_bap_broadcast_source_stop gEnab (some 0) (.ok ()) =
      (.error .alreadyStopped, gEnab)) ∧
    (bt_bap_broadcast_source_delete gEnab (some 0) = (.error .invalidState, gEnab)) ∧
    (bt_bap_broadcast_source_reconfig gEnab (some 0) (some pReconfigEnab) =
      (.error .invalidState, gEnab)) ∧
    (bt_bap_broadcast_source_update_metadata gEnab (some 0) false [1] =
      (.error .invalidState, gEnab)) ∧
    (bt_bap_broadcast_source_get_base gInit (some 0) (some ⟨16, []⟩) =
      (.error .invalidState, gInit, some ⟨16, []⟩)) :=
  ⟨(lifecycle_state_guards gInit 0).1 (.ok 1) (by decide),
   (lifecycle_state_guards gInit 0).2.1 (.ok ()) (by decide) (by decide),
   (lifecycle_state_guards gEnab 0).2.2.1 (.ok ()) (by decide) (by decide),
   (lifecycle_state_guards gEnab 0).2.2.2.1 (by decide),
   (lifecycle_state_guards gEnab 0).2.2.2.2.1 pReconfigEnab (by decide) (by decide),
   (lifecycle_state_guards gEnab 0).2.2.2.2.2.1 [1] (by decide) (by decide) (by decide),
   (lifecycle_state_guards gInit 0).2.2.2.2.2.2 ⟨16, []⟩ (by decide)⟩

/-! ### Claim C8: start drives endpoints to Enabling and rolls back -/

theorem getD_set_self {α : Type} :
    ∀ (l : List α) (i : Nat) (x d : α), i < l.length → (l.set i x).getD i d = x := by
  intro l
  induction l with
  | nil => intro i x d h; simp at h
  | cons a l ih =>
      intro i x d h
      cases i with
      | zero => rfl
      | succ n =>
          simp only [List.set_cons_succ, List.getD, List.getElem?_cons_succ]
          exact ih n x d (by simpa using h)

theorem getD_set_other {α : Type} :
    ∀ (l : List α) (i j : Nat) (x d : α), i ≠ j → (l.set i x).getD j d = l.getD j d := by
  intro l
  induction l with
  | nil => intro i j x d _; cases i <;> rfl
  | cons a l ih =>
      intro i j x d h
      cases i with
      | zero =>
          cases j with
          | zero => exact absurd rfl h
          | succ m => rfl
      | succ n =>
          cases j with
          | zero => rfl
          | succ m =>
              simp only [List.set_cons_succ, List.getD, List.getElem?_cons_succ]
              exact ih n m x d (fun hc => h (by rw [hc]))

theorem getCell_setCell (g : GState) (idx : Nat) (c : SrcCell)
    (h : idx < g.cells.length) : getCell (setCell g idx c) idx = c := by
  unfold getCell setCell
  exact getD_set_self _ _ _ _ h

/-- The endpoint-slot indices referenced by a source's streams, in
subgroup-then-stream order. -/
def epRefsList (streams : List BapStream) (cell : SrcCell) : List Nat :=
  cell.src.subgroups.foldr (fun j acc =>
    (cell.sgPool.getD j SubgroupSlot.empty).streams.foldr (fun sid acc2 =>
      match (streams.getD sid cleanStream).ep with
      | some k => k :: acc2
      | none => acc2) acc) []

/-- The endpoint-slot indices referenced by a source. -/
def epRefsOf (g : GState) (idx : Nat) : List Nat :=
  epRefsList g.streams (getCell g idx)

theorem epRefsList_epPool_irrel (streams : List BapStream) (cell : SrcCell) (P : List Ep) :
    epRefsList streams { cell with epPool := P } = epRefsList streams cell := rfl

theorem inner_states_eq_map (streams : List BapStream) (pool : List Ep) :
    ∀ (l : List Nat) (accS : List EpState) (accR : List Nat),
      accS = accR.map (fun k => (pool.getD k Ep.freeSlot).state) →
      l.foldr (fun sid acc2 =>
        match (streams.getD sid cleanStream).ep with
        | some k => (pool.getD k Ep.freeSlot).state :: acc2
        | none => acc2) accS =
      (l.foldr (fun sid acc2 =>
        match (streams.getD sid cleanStream).ep with
        | some k => k :: acc2
        | none => acc2) accR).map (fun k => (pool.getD k Ep.freeSlot).state) := by
  intro l
  induction l with
  | nil => intro accS accR h; exact h
  | cons sid rest ih =>
      intro accS accR h
      simp only [List.foldr_cons]
      cases (streams.getD sid cleanStream).ep with
      | none => exact ih accS accR h
      | some k => exact congrArg (List.cons _) (ih accS accR h)

theorem states_eq_map_refs (streams : List BapStream) (cell : SrcCell) :
    ∀ (sgs : List Nat) (accS : List EpState) (accR : List Nat),
      accS = accR.map (fun k => (cell.epPool.getD k Ep.freeSlot).state) →
      sgs.foldr (fun j acc =>
        (cell.sgPool.getD j SubgroupSlot.empty).streams.foldr (fun sid acc2 =>
          match (streams.getD sid cleanStream).ep with
          | some k => (cell.epPool.getD k Ep.freeSlot).state :: acc2
          | none => acc2) acc) accS =
      (sgs.foldr (fun j acc =>
        (cell.sgPool.getD j SubgroupSlot.empty).streams.foldr (fun sid acc2 =>
          match (streams.getD sid cleanStream).ep with
          | some k => k :: acc2
          | none => acc2) acc) accR).map
        (fun k => (cell.epPool.getD k Ep.freeSlot).state) := by
  intro sgs
  induction sgs with
  | nil => intro accS accR h; exact h
  | cons j rest ih =>
      intro accS accR h
      simp only [List.foldr_cons]
      exact inner_states_eq_map streams cell.epPool _ _ _ (ih accS accR h)

/-- The endpoint states are the referenced slots' states, in order. -/
theorem epStatesOf_eq_map (g : GState) (idx : Nat) :
    epStatesOf g idx =
      (epRefsOf g idx).map (fun k => ((getCell g idx).epPool.getD k Ep.freeSlot).state) := by
  unfold epStatesOf epRefsOf epRefsList
  exact states_eq_map_refs g.streams (getCell g idx) (getCell g idx).src.subgroups [] [] rfl

/-- One transition-requesting update of an endpoint pool slot. -/
def transSet (st : EpState) (pool : List Ep) (k : Nat) : List Ep :=
  pool.set k { (pool.getD k Ep.freeSlot) with
    state := broadcast_source_set_ep_state (pool.getD k Ep.freeSlot).state st }

theorem inner_fold_as_refs (streams : List BapStream) (st : EpState) :
    ∀ (l : List Nat) (pool : List Ep),
      l.foldl (fun pool sid =>
        match (streams.getD sid cleanStream).ep with
        | some k =>
            pool.set k { (pool.getD k Ep.freeSlot) with
              state := broadcast_source_set_ep_state (pool.getD k Ep.freeSlot).state st }
        | none => pool) pool =
      (l.foldr (fun sid acc2 =>
        match (streams.getD sid cleanStream).ep with
        | some k => k :: acc2
        | none => acc2) []).foldl (transSet st) pool := by
  intro l
  induction l with
  | nil => intro pool; rfl
  | cons sid rest ih =>
      intro pool
      simp only [List.foldl_cons, List.foldr_cons]
      cases (streams.getD sid cleanStream).ep with
      | none => exact ih pool
      | some k => exact ih (transSet st pool k)

theorem inner_refs_append (streams : List BapStream) :
    ∀ (l : List Nat) (acc : List Nat),
      l.foldr (fun sid acc2 =>
        match (streams.getD sid cleanStream).ep with
        | some k => k :: acc2
        | none => acc2) acc =
      (l.foldr (fun sid acc2 =>
        match (streams.getD sid cleanStream).ep with
        | some k => k :: acc2
        | none => acc2) []) ++ acc := by
  intro l
  induction l with
  | nil => intro acc; rfl
  | cons sid rest ih =>
      intro acc
      simp only [List.foldr_cons]
      cases (streams.getD sid cleanStream).ep with
      | none => exact ih acc
      | some k => exact congrArg (List.cons _) (ih acc)

theorem outer_fold_as_refs (streams : List BapStream) (cell : SrcCell) (st : EpState) :
    ∀ (sgs : List Nat) (pool : List Ep),
      sgs.foldl (fun pool j =>
        (cell.sgPool.getD j SubgroupSlot.empty).streams.foldl (fun pool sid =>
          match (streams.getD sid cleanStream).ep with
          | some k =>
              pool.set k { (pool.getD k Ep.freeSlot) with
                state := broadcast_source_set_ep_state (pool.getD k Ep.freeSlot).state st }
          | none => pool) pool) pool =
      (sgs.foldr (fun j acc =>
        (cell.sgPool.getD j SubgroupSlot.empty).streams.foldr (fun sid acc2 =>
          match (streams.getD sid cleanStream).ep with
          | some k => k :: acc2
          | none => acc2) acc) []).foldl (transSet st) pool := by
  intro sgs
  induction sgs with
  | nil => intro pool; rfl
  | cons j rest ih =>
      intro pool
      simp only [List.foldl_cons, List.foldr_cons]
      conv_rhs => rw [inner_refs_append streams, List.foldl_append]
      rw [ih, inner_fold_as_refs streams st]

/-- broadcast_source_set_state is the flat fold of transition updates over
the referenced endpoint slots. -/
theorem set_state_flat (g : GState) (idx : Nat) (st : EpState) :
    broadcast_source_set_state g idx st =
      setCell g idx { getCell g idx with
        epPool := (epRefsOf g idx).foldl (transSet st) (getCell g idx).epPool } := by
  simp only [broadcast_source_set_state, epRefsOf, epRefsList]
  rw [outer_fold_as_refs g.streams (getCell g idx) st]

/-- Folding transition updates over a reference list: every referenced slot
ends at the target state (provided all referenced slots start in a set of
states from which the requested transition is accepted, the target state
included so that repeated references stay put), unreferenced slots are
untouched, and the pool length is preserved. -/
theorem foldTrans_states (st : EpState) (S : EpState → Prop)
    (hstep : ∀ s, S s → broadcast_source_set_ep_state s st = st) (hstS : S st) :
    ∀ (refs : List Nat) (pool : List Ep),
      (∀ k ∈ refs, k < pool.length ∧ S (pool.getD k Ep.freeSlot).state) →
      (∀ k ∈ refs,
        ((refs.foldl (transSet st) pool).getD k Ep.freeSlot).state = st) ∧
      (∀ j, j ∉ refs → (refs.foldl (transSet st) pool).getD j Ep.freeSlot =
        pool.getD j Ep.freeSlot) ∧
      (refs.foldl (transSet st) pool).length = pool.length := by
  intro refs
  induction refs with
  | nil =>
      intro pool _
      exact ⟨fun k hk => absurd hk (List.not_mem_nil k), fun j _ => rfl, rfl⟩
  | cons r rest ih =>
      intro pool hS
      obtain ⟨hrlt, hrS⟩ := hS r (by simp)
      have hpool1len : (transSet st pool r).length = pool.length := List.length_set ..
      have hpool1r : (transSet st pool r).getD r Ep.freeSlot =
          { (pool.getD r Ep.freeSlot) with
            state := broadcast_source_set_ep_state (pool.getD r Ep.freeSlot).state st } :=
        getD_set_self _ _ _ _ hrlt
      have hpool1rst : ((transSet st pool r).getD r Ep.freeSlot).state = st := by
        rw [hpool1r]
        exact hstep _ hrS
      have hpool1other : ∀ j, j ≠ r →
          (transSet st pool r).getD j Ep.freeSlot = pool.getD j Ep.freeSlot := by
        intro j hj
        exact getD_set_other _ _ _ _ _ (fun hc => hj hc.symm)
      have htail : ∀ k ∈ rest, k < (transSet st pool r).length ∧
          S ((transSet st pool r).getD k Ep.freeSlot).state := by
        intro k hk
        obtain ⟨hklt, hkS⟩ := hS k (List.mem_cons_of_mem _ hk)
        refine ⟨by rw [hpool1len]; exact hklt, ?_⟩
        by_cases hkr : k = r
        · subst hkr
          rw [hpool1rst]
          exact hstS
        · rw [hpool1other k hkr]
          exact hkS
      obtain ⟨ih1, ih2, ih3⟩ := ih (transSet st pool r) htail
      simp only [List.foldl_cons]
      refine ⟨?_, ?_, by rw [ih3, hpool1len]⟩
      · intro k hk
        rcases List.mem_cons.mp hk with hkr | hkrest
        · subst hkr
          by_cases hkrest2 : k ∈ rest
          · exact ih1 k hkrest2
          · rw [ih2 k hkrest2]
            exact hpool1rst
        · exact ih1 k hkrest
      · intro j hj
        have hjr : j ≠ r := fun hc => hj (hc ▸ List.mem_cons_self r rest)
        have hjrest : j ∉ rest := fun hc => hj (List.mem_cons_of_mem _ hc)
        rw [ih2 j hjrest, hpool1other j hjr]

theorem foldr_stMax_const :
    ∀ (l : List EpState) (c : EpState), l ≠ [] → (∀ s ∈ l, s = c) →
      l.foldr stMax .idle = c := by
  intro l
  induction l with
  | nil => intro c h _; exact absurd rfl h
  | cons x rest ih =>
      intro c _ hall
      have hx : x = c := hall x (by simp)
      cases rest with
      | nil =>
          simp only [List.foldr_cons, List.foldr_nil]
          rw [hx, stMax_idle_right c]
      | cons y t =>
          simp only [List.foldr_cons] at ih ⊢
          rw [hx, ih c (by simp) (fun s hs => hall s (List.mem_cons_of_mem _ hs))]
          exact (by decide : ∀ c : EpState, stMax c c = c) c

/-- Claim C8: for a source whose aggregate state is QosConfigured (for
sources built by this unit that is exactly the condition that every
endpoint is QosConfigured, which is how it is phrased here; the hypotheses
also pin the wiring: at least one endpoint, all endpoint indices in range),
start requests the Enabling transition on every endpoint before the
transport collaborator runs, and when the collaborator fails, start
returns the collaborator's error unchanged and rolls every endpoint back
to QosConfigured, so the aggregate state is again QosConfigured. -/
theorem start_enabling_and_rollback
    (g : GState) (idx : Nat) (e : Nat)
    (hidx : idx < g.cells.length)
    (hne : epRefsOf g idx ≠ [])
    (hbound : ∀ k ∈ epRefsOf g idx, k < (getCell g idx).epPool.length)
    (hall : ∀ s ∈ epStatesOf g idx, s = .qosConfigured) :
    broadcast_source_get_state g (some idx) = .qosConfigured ∧
    (∀ s ∈ epStatesOf (broadcast_source_set_state g idx .enabling) idx, s = .enabling) ∧
    (bt_bap_broadcast_source_start g (some idx) false (.error e)).1 =
      .error (.downstream e) ∧
    (∀ s ∈ epStatesOf (bt_bap_broadcast_source_start g (some idx) false (.error e)).2 idx,
      s = .qosConfigured) ∧
    broadcast_source_get_state
      (bt_bap_broadcast_source_start g (some idx) false (.error e)).2 (some idx) =
      .qosConfigured := by
  have hallref : ∀ k ∈ epRefsOf g idx,
      ((getCell g idx).epPool.getD k Ep.freeSlot).state = .qosConfigured := by
    intro k hk
    exact hall _ (by rw [epStatesOf_eq_map]; exact List.mem_map_of_mem _ hk)
  have hsne : epStatesOf g idx ≠ [] := by
    rw [epStatesOf_eq_map]
    intro h
    exact hne (List.map_eq_nil_iff.mp h)
  have ha : broadcast_source_get_state g (some idx) = .qosConfigured := by
    rw [get_state_eq_aggregate]
    show (epStatesOf g idx).foldr stMax .idle = _
    exact foldr_stMax_const _ _ hsne hall
  obtain ⟨h1all, h1other, h1len⟩ :=
    foldTrans_states .enabling (fun s => s = .qosConfigured ∨ s = .enabling)
      (by decide) (Or.inr rfl) (epRefsOf g idx) (getCell g idx).epPool
      (fun k hk => ⟨hbound k hk, Or.inl (hallref k hk)⟩)
  have hg1 := set_state_flat g idx .enabling
  have hcell1 : getCell (broadcast_source_set_state g idx .enabling) idx =
      { getCell g idx with
        epPool := (epRefsOf g idx).foldl (transSet .enabling) (getCell g idx).epPool } := by
    rw [hg1, getCell_setCell _ _ _ hidx]
  have hstr1 : (broadcast_source_set_state g idx .enabling).streams = g.streams := by
    rw [hg1]
    rfl
  have hrefs1 : epRefsOf (broadcast_source_set_state g idx .enabling) idx =
      epRefsOf g idx := by
    show epRefsList _ _ = _
    rw [hstr1, hcell1, epRefsList_epPool_irrel]
    rfl
  have hb : ∀ s ∈ epStatesOf (broadcast_source_set_state g idx .enabling) idx,
      s = .enabling := by
    intro s hs
    rw [epStatesOf_eq_map, hrefs1, hcell1] at hs
    obtain ⟨k, hk, hks⟩ := List.mem_map.mp hs
    rw [← hks]
    exact h1all k hk
  have hstart : bt_bap_broadcast_source_start g (some idx) false (.error e) =
      (.error (.downstream e),
        broadcast_source_set_state (broadcast_source_set_state g idx .enabling) idx
          .qosConfigured) := by
    simp only [bt_bap_broadcast_source_start]
    rw [if_neg (by simp : ¬(false = true)), if_pos ha]
  have hlen1 : (broadcast_source_set_state g idx .enabling).cells.length =
      g.cells.length := by
    rw [hg1]
    exact List.length_set ..
  have hidx1 : idx < (broadcast_source_set_state g idx .enabling).cells.length := by
    rw [hlen1]; exact hidx
  obtain ⟨h2all, h2other, h2len⟩ :=
    foldTrans_states .qosConfigured (fun s => s = .enabling ∨ s = .qosConfigured)
      (by decide) (Or.inr rfl) (epRefsOf g idx)
      ((epRefsOf g idx).foldl (transSet .enabling) (getCell g idx).epPool)
      (fun k hk => ⟨by rw [h1len]; exact hbound k hk, Or.inl (h1all k hk)⟩)
  have hcell2 : getCell (broadcast_source_set_state
      (broadcast_source_set_state g idx .enabling) idx .qosConfigured) idx =
      { getCell (broadcast_source_set_state g idx .enabling) idx with
        epPool := (epRefsOf g idx).foldl (transSet .qosConfigured)
          ((epRefsOf g idx).foldl (transSet .enabling) (getCell g idx).epPool) } := by
    rw [set_state_flat, getCell_setCell _ _ _ hidx1, hrefs1, hcell1]
  have hstr2 : (broadcast_source_set_state
      (broadcast_source_set_state g idx .enabling) idx .qosConfigured).streams =
      g.streams := by
    rw [set_state_flat]
    exact hstr1
  have hrefs2 : epRefsOf (broadcast_source_set_state
      (broadcast_source_set_state g idx .enabling) idx .qosConfigured) idx =
      epRefsOf g idx := by
    show epRefsList _ _ = _
    rw [hstr2, hcell2, epRefsList_epPool_irrel]
    rw [hcell1, epRefsList_epPool_irrel]
    rfl
  have hd : ∀ s ∈ epStatesOf (broadcast_source_set_state
      (broadcast_source_set_state g idx .enabling) idx .qosConfigured) idx,
      s = .qosConfigured := by
    intro s hs
    rw [epStatesOf_eq_map, hrefs2, hcell2] at hs
    obtain ⟨k, hk, hks⟩ := List.mem_map.mp hs
    rw [← hks]
    exact h2all k hk
  have hd_ne : epStatesOf (broadcast_source_set_state
      (broadcast_source_set_state g idx .enabling) idx .qosConfigured) idx ≠ [] := by
    rw [epStatesOf_eq_map, hrefs2]
    intro h
    exact hne (List.map_eq_nil_iff.mp h)
  refine ⟨ha, hb, ?_, ?_, ?_⟩
  · rw [hstart]
  · rw [hstart]
    exact hd
  · rw [hstart]
    show broadcast_source_get_state _ (some idx) = _
    rw [get_state_eq_aggregate]
    show (epStatesOf _ idx).foldr stMax .idle = _
    exact foldr_stMax_const _ _ hd_ne hd

/-- A source slot whose single endpoint is QosConfigured (the state create
leaves behind), used to exercise the start claim. -/
def cellQos : SrcCell :=
  { src := { SrcStruct.zero with subgroups := [0], qos := some qosA }
    sgPool := [⟨[0], some codecA⟩, SubgroupSlot.empty]
    epPool := [⟨.qosConfigured, some 0, true⟩, Ep.freeSlot, Ep.freeSlot, Ep.freeSlot] }

/-- A global state holding that source. -/
def gQos : GState :=
  ⟨[cellQos, SrcCell.init],
   [⟨some 0, some (.slot 0 0), some qosA, none⟩, cleanStream], 3⟩

theorem start_enabling_and_rollback_witness :
    (0 < gQos.cells.length) ∧ (epRefsOf gQos 0 ≠ []) ∧
    (∀ k ∈ epRefsOf gQos 0, k < (getCell gQos 0).epPool.length) ∧
    (∀ s ∈ epStatesOf gQos 0, s = .qosConfigured) ∧
    (broadcast_source_get_state gQos (some 0) = .qosConfigured ∧
     (∀ s ∈ epStatesOf (broadcast_source_set_state gQos 0 .enabling) 0, s = .enabling) ∧
     (bt_bap_broadcast_source_start gQos (some 0) false (.error 5)).1 =
       .error (.downstream 5) ∧
     (∀ s ∈ epStatesOf (bt_bap_broadcast_source_start gQos (some 0) false (.error 5)).2 0,
       s = .qosConfigured) ∧
     broadcast_source_get_state
       (bt_bap_broadcast_source_start gQos (some 0) false (.error 5)).2 (some 0) =
       .qosConfigured) :=
  ⟨by decide, by decide, by decide, by decide,
   start_enabling_and_rollback gQos 0 5 (by decide) (by decide) (by decide) (by decide)⟩

/-! ### Claim C3: the BASE layout -/

/-- A value as one little-endian byte. -/
def u8bytes (v : Nat) : List Nat := [v % 256]

/-- A value as two little-endian bytes. -/
def le16bytes (v : Nat) : List Nat := [v % 256, v / 256 % 256]

/-- A value as three little-endian bytes. -/
def le24bytes (v : Nat) : List Nat := [v % 256, v / 256 % 256, v / 65536 % 256]

/-- The claim's per-stream layout: a 1-based BIS index from a single
counter incremented once per stream, then the stream's length-prefixed
per-BIS config bytes (stream_data relative to the subgroup's first global
stream index). -/
def specBis (sd : List StreamDataSlot) : Nat → Nat → Nat → List Nat
  | 0, _, _ => []
  | n + 1, i, se =>
      u8bytes (se + 1) ++ u8bytes (sd.getD i ⟨[]⟩).data.length ++ (sd.getD i ⟨[]⟩).data
        ++ specBis sd n (i + 1) (se + 1)

/-- The claim's per-subgroup layout: stream count, codec id, company id,
vendor id, length-prefixed codec-config bytes, length-prefixed metadata
bytes, then the streams. -/
def specSubgroupBytes (sg : SubgroupSlot) (sd : List StreamDataSlot) (se : Nat) : List Nat :=
  u8bytes sg.streams.length ++ u8bytes (sg.codecCfg.getD CodecCfg.zero).id ++
  le16bytes (sg.codecCfg.getD CodecCfg.zero).cid ++
  le16bytes (sg.codecCfg.getD CodecCfg.zero).vid ++
  u8bytes (sg.codecCfg.getD CodecCfg.zero).data.length ++
  (sg.codecCfg.getD CodecCfg.zero).data ++
  u8bytes (sg.codecCfg.getD CodecCfg.zero).meta.length ++
  (sg.codecCfg.getD CodecCfg.zero).meta ++
  specBis sd sg.streams.length 0 se

/-- The subgroups in insertion order, the BIS counter carried across
subgroup boundaries. -/
def specSubgroupsBytes (cell : SrcCell) : List Nat → Nat → List Nat
  | [], _ => []
  | j :: rest, se =>
      specSubgroupBytes (cell.sgPool.getD j SubgroupSlot.empty)
        (cell.src.streamData.drop se) se ++
      specSubgroupsBytes cell rest
        (se + (cell.sgPool.getD j SubgroupSlot.empty).streams.length)

/-- The claim's whole-BASE layout: 16-bit UUID, 24-bit presentation delay,
8-bit subgroup count, then the subgroups. -/
def specBaseBytes (cell : SrcCell) : List Nat :=
  le16bytes BT_UUID_BASIC_AUDIO_VAL ++ le24bytes (cell.src.qos.getD default).pd ++
  u8bytes cell.src.subgroups.length ++ specSubgroupsBytes cell cell.src.subgroups 0

theorem sub16_exact (size len : Nat) (hsz : size < 65536) (hle : len ≤ size) :
    sub16 size len = size - len := by
  unfold sub16
  omega

theorem encodeBisLoop_spec (sd : List StreamDataSlot) :
    ∀ (n : Nat) (i se : Nat) (buf : NetBufSimple),
      buf.size < 65536 →
      buf.len + (specBis sd n i se).length ≤ buf.size →
      encodeBisLoop sd n i se buf =
        (true, se + n, { buf with data := buf.data ++ specBis sd n i se }) := by
  intro n
  induction n with
  | zero =>
      intro i se buf _ _
      simp [encodeBisLoop, specBis]
  | succ n ih =>
      intro i se buf hsz hcap
      obtain ⟨size, data⟩ := buf
      have hlenspec : (specBis sd (n + 1) i se).length =
          2 + (sd.getD i ⟨[]⟩).data.length + (specBis sd n (i + 1) (se + 1)).length := by
        simp [specBis, u8bytes]
        omega
      simp only [NetBufSimple.len] at hcap hsz
      simp only [encodeBisLoop, net_buf_simple_add_u8, net_buf_simple_add_mem,
        NetBufSimple.len, List.length_append, List.length_cons, List.length_nil,
        Nat.zero_add, Nat.add_zero]
      rw [if_neg (by rw [sub16_exact _ _ hsz (by omega)]; omega),
        if_neg (by rw [sub16_exact _ _ hsz (by omega)]; omega),
        if_neg (by rw [sub16_exact _ _ hsz (by omega)]; omega)]
      rw [ih]
      · have h1 : se + 1 + n = se + (n + 1) := by omega
        rw [h1]
        exact congrArg
          (fun d => ((true, se + (n + 1), (⟨size, d⟩ : NetBufSimple)) :
            Bool × Nat × NetBufSimple))
          (by simp [specBis, u8bytes, List.append_assoc])
      · exact hsz
      · simp only [NetBufSimple.len, List.length_append, List.length_cons,
          List.length_nil, Nat.zero_add, Nat.add_zero]
        omega

theorem encode_base_subgroup_spec (sg : SubgroupSlot) (sd : List StreamDataSlot)
    (se : Nat) (buf : NetBufSimple)
    (hsz : buf.size < 65536)
    (hcap : buf.len + (specSubgroupBytes sg sd se).length ≤ buf.size) :
    encode_base_subgroup sg sd se buf =
      (true, se + sg.streams.length,
        { buf with data := buf.data ++ specSubgroupBytes sg sd se }) := by
  obtain ⟨size, data⟩ := buf
  simp only [NetBufSimple.len] at hcap hsz
  have hlenspec : (specSubgroupBytes sg sd se).length =
      8 + (sg.codecCfg.getD CodecCfg.zero).data.length +
      (sg.codecCfg.getD CodecCfg.zero).meta.length +
      (specBis sd sg.streams.length 0 se).length := by
    simp [specSubgroupBytes, u8bytes, le16bytes]
    omega
  simp only [encode_base_subgroup, net_buf_simple_add_u8, net_buf_simple_add_le16,
    net_buf_simple_add_mem, NetBufSimple.len, List.length_append, List.length_cons,
    List.length_nil, Nat.zero_add, Nat.add_zero]
  rw [if_neg (by rw [sub16_exact _ _ hsz (by omega)]; omega),
      if_neg (by rw [sub16_exact _ _ hsz (by omega)]; omega),
      if_neg (by rw [sub16_exact _ _ hsz (by omega)]; omega)]
  rw [encodeBisLoop_spec sd]
  · exact congrArg
      (fun d => ((true, se + sg.streams.length, (⟨size, d⟩ : NetBufSimple)) :
        Bool × Nat × NetBufSimple))
      (by simp [specSubgroupBytes, u8bytes, le16bytes, List.append_assoc])
  · exact hsz
  · simp only [NetBufSimple.len, List.length_append, List.length_cons,
      List.length_nil, Nat.zero_add, Nat.add_zero]
    omega

theorem encodeSubgroupsLoop_spec (cell : SrcCell) :
    ∀ (sgs : List Nat) (se : Nat) (buf : NetBufSimple),
      buf.size < 65536 →
      buf.len + (specSubgroupsBytes cell sgs se).length ≤ buf.size →
      encodeSubgroupsLoop cell sgs se buf =
        (true, { buf with data := buf.data ++ specSubgroupsBytes cell sgs se }) := by
  intro sgs
  induction sgs with
  | nil =>
      intro se buf _ _
      simp [encodeSubgroupsLoop, specSubgroupsBytes]
  | cons j rest ih =>
      intro se buf hsz hcap
      obtain ⟨size, data⟩ := buf
      simp only [NetBufSimple.len] at hcap hsz
      have hsplit : (specSubgroupsBytes cell (j :: rest) se).length =
          (specSubgroupBytes (cell.sgPool.getD j SubgroupSlot.empty)
            (cell.src.streamData.drop se) se).length +
          (specSubgroupsBytes cell rest
            (se + (cell.sgPool.getD j SubgroupSlot.empty).streams.length)).length := by
        simp [specSubgroupsBytes]
      show encodeSubgroupsLoop cell (j :: rest) se ⟨size, data⟩ = _
      unfold encodeSubgroupsLoop
      rw [encode_base_subgroup_spec (cell.sgPool.getD j SubgroupSlot.empty)
        (cell.src.streamData.drop se) se ⟨size, data⟩ hsz
        (by simp only [NetBufSimple.len]; omega)]
      show encodeSubgroupsLoop cell rest
          (se + (cell.sgPool.getD j SubgroupSlot.empty).streams.length)
          ⟨size, data ++ specSubgroupBytes (cell.sgPool.getD j SubgroupSlot.empty)
            (cell.src.streamData.drop se) se⟩ = _
      rw [ih]
      · exact congrArg (fun d => ((true, (⟨size, d⟩ : NetBufSimple)) :
          Bool × NetBufSimple))
          (by simp [specSubgroupsBytes, List.append_assoc])
      · exact hsz
      · simp only [NetBufSimple.len, List.length_append]
        omega

theorem encode_base_spec (cell : SrcCell) (buf : NetBufSimple)
    (hsz : buf.size < 65536)
    (hmin : MINIMUM_BASE_SIZE ≤ (specBaseBytes cell).length)
    (hcap : buf.len + (specBaseBytes cell).length ≤ buf.size) :
    encode_base cell buf = (true, { buf with data := buf.data ++ specBaseBytes cell }) := by
  obtain ⟨size, data⟩ := buf
  simp only [NetBufSimple.len] at hcap hsz
  have hlenhdr : (specBaseBytes cell).length =
      6 + (specSubgroupsBytes cell cell.src.subgroups 0).length := by
    simp [specBaseBytes, le16bytes, le24bytes, u8bytes]
    omega
  unfold encode_base
  rw [if_neg (by
    simp only [NetBufSimple.len, MINIMUM_BASE_SIZE] at hmin ⊢
    omega)]
  simp only [net_buf_simple_add_le16, net_buf_simple_add_le24, net_buf_simple_add_u8,
    NetBufSimple.len]
  rw [encodeSubgroupsLoop_spec cell]
  · exact congrArg (fun d => ((true, (⟨size, d⟩ : NetBufSimple)) : Bool × NetBufSimple))
      (by simp [specBaseBytes, le16bytes, le24bytes, u8bytes, List.append_assoc])
  · exact hsz
  · simp only [NetBufSimple.len, List.length_append, List.length_cons,
      List.length_nil, Nat.zero_add, Nat.add_zero]
    omega

theorem specBis_len_ge (sd : List StreamDataSlot) :
    ∀ (n i se : Nat), 2 * n ≤ (specBis sd n i se).length := by
  intro n
  induction n with
  | zero => intro i se; simp [specBis]
  | succ n ih =>
      intro i se
      have := ih (i + 1) (se + 1)
      simp only [specBis, u8bytes, List.length_append, List.length_cons,
        List.length_nil]
      omega

theorem specSubgroupBytes_len_ge (sg : SubgroupSlot) (sd : List StreamDataSlot) (se : Nat) :
    8 + 2 * sg.streams.length ≤ (specSubgroupBytes sg sd se).length := by
  have := specBis_len_ge sd sg.streams.length 0 se
  simp only [specSubgroupBytes, u8bytes, le16bytes, List.length_append,
    List.length_cons, List.length_nil]
  omega

theorem specSubgroupsBytes_len_ge (cell : SrcCell) :
    ∀ (sgs : List Nat) (se j : Nat), j ∈ sgs →
      (cell.sgPool.getD j SubgroupSlot.empty).streams ≠ [] →
      10 ≤ (specSubgroupsBytes cell sgs se).length := by
  intro sgs
  induction sgs with
  | nil => intro se j hj _; simp at hj
  | cons j' rest ih =>
      intro se j hj hne
      have hhead := specSubgroupBytes_len_ge (cell.sgPool.getD j' SubgroupSlot.empty)
        (cell.src.streamData.drop se) se
      simp only [specSubgroupsBytes, List.length_append]
      rcases List.mem_cons.mp hj with hjj | hjrest
      · subst hjj
        have hpos : 1 ≤ (cell.sgPool.getD j SubgroupSlot.empty).streams.length := by
          cases h : (cell.sgPool.getD j SubgroupSlot.empty).streams with
          | nil => exact absurd h hne
          | cons a l => simp [h]
        omega
      · have := ih (se + (cell.sgPool.getD j' SubgroupSlot.empty).streams.length) j
          hjrest hne
        omega

theorem refs_nonempty_subgroup (streams : List BapStream) (cell : SrcCell) :
    epRefsList streams cell ≠ [] →
    ∃ j ∈ cell.src.subgroups, (cell.sgPool.getD j SubgroupSlot.empty).streams ≠ [] := by
  unfold epRefsList
  generalize cell.src.subgroups = sgs
  induction sgs with
  | nil => intro h; exact absurd rfl h
  | cons j rest ih =>
      intro h
      by_cases hs : (cell.sgPool.getD j SubgroupSlot.empty).streams = []
      · simp only [List.foldr_cons, hs, List.foldr_nil] at h
        obtain ⟨j', hj', hne'⟩ := ih h
        exact ⟨j', List.mem_cons_of_mem _ hj', hne'⟩
      · exact ⟨j, List.mem_cons_self _ _, hs⟩

/-- Claim C3: for every source whose aggregate state is not Idle and every
buffer with enough remaining capacity, get_base succeeds and appends
exactly the claimed layout: 16-bit UUID, 24-bit presentation delay, 8-bit
subgroup count, then per subgroup in insertion order the stream count,
codec id, company id, vendor id, length-prefixed codec-config bytes,
length-prefixed metadata bytes, and per stream a 1-based BIS index drawn
from a single counter incremented once per stream across all subgroups,
followed by the stream's length-prefixed per-BIS config bytes
(specBaseBytes is that layout, written from the claim). -/
theorem get_base_layout (g : GState) (idx : Nat) (b : NetBufSimple)
    (hstate : broadcast_source_get_state g (some idx) ≠ .idle)
    (hsz : b.size < 65536)
    (hcap : b.len + (specBaseBytes (getCell g idx)).length ≤ b.size) :
    bt_bap_broadcast_source_get_base g (some idx) (some b) =
      (.ok (), g, some { b with data := b.data ++ specBaseBytes (getCell g idx) }) := by
  have hagg := get_state_eq_aggregate g (some idx)
  have hstates : epStatesOf g idx ≠ [] := by
    intro hnil
    apply hstate
    rw [hagg]
    show (epStatesOf g idx).foldr stMax .idle = .idle
    rw [hnil]
    rfl
  have hrefs : epRefsOf g idx ≠ [] := by
    intro hnil
    apply hstates
    rw [epStatesOf_eq_map, hnil]
    rfl
  obtain ⟨j, hjmem, hjne⟩ := refs_nonempty_subgroup g.streams (getCell g idx) hrefs
  have hmin : MINIMUM_BASE_SIZE ≤ (specBaseBytes (getCell g idx)).length := by
    have h10 := specSubgroupsBytes_len_ge (getCell g idx)
      (getCell g idx).src.subgroups 0 j hjmem hjne
    simp only [specBaseBytes, le16bytes, le24bytes, u8bytes, List.length_append,
      List.length_cons, List.length_nil, MINIMUM_BASE_SIZE]
    omega
  have henc := encode_base_spec (getCell g idx) b hsz hmin hcap
  simp only [bt_bap_broadcast_source_get_base]
  rw [if_neg hstate, henc]

theorem get_base_layout_witness :
    (broadcast_source_get_state gQos (some 0) ≠ .idle) ∧
    ((⟨64, []⟩ : NetBufSimple).size < 65536) ∧
    ((⟨64, []⟩ : NetBufSimple).len + (specBaseBytes (getCell gQos 0)).length ≤
      (⟨64, []⟩ : NetBufSimple).size) ∧
    bt_bap_broadcast_source_get_base gQos (some 0) (some ⟨64, []⟩) =
      (.ok (), gQos, some ⟨64, [] ++ specBaseBytes (getCell gQos 0)⟩) :=
  ⟨by decide, by decide, by decide,
    get_base_layout gQos 0 ⟨64, []⟩ (by decide) (by decide) (by decide)⟩

/-! ### Claim C1: unwinding of a failed create -/

/-- The record a successful broadcast_source_setup_stream leaves in the
stream table: endpoint slot and resolved-config slot both at the global BIS
index. -/
def mkStream (idx bis : Nat) (qos : QosCfg) : BapStream :=
  ⟨some bis, some (.slot idx bis), some qos, none⟩

/-- The endpoint-pool entry a successful stream setup leaves. -/
def mkEp (sid : Nat) : Ep := ⟨.idle, some sid, true⟩

/-- An opened subgroup slot: attached stream ids plus the parameter's codec
config. -/
def mkSlot (c : CodecCfg) (sids : List Nat) : SubgroupSlot := ⟨sids, some c⟩

/-- The stream table mid-create: the listed stream ids (in allocation
order, global BIS numbering from n) written with their setup records. -/
def streamsMid (idx : Nat) (qos : QosCfg) : List BapStream → List Nat → Nat → List BapStream
  | base, [], _ => base
  | base, sid :: rest, n => streamsMid idx qos (base.set sid (mkStream idx n qos)) rest (n + 1)

/-- The endpoint pool mid-create: the first slots bound in allocation
order, the rest still free. -/
def epPoolMid (sids : List Nat) : List Ep :=
  sids.map mkEp ++ List.replicate (BROADCAST_STREAM_CNT - sids.length) Ep.freeSlot

/-- The subgroup pool mid-create: the first slots opened with the
parameters' codec configs and their attached stream ids, later slots
untouched. -/
def sgPoolMid (pool0 : List SubgroupSlot) (cfgs : List CodecCfg)
    (sgSids : List (List Nat)) : List SubgroupSlot :=
  List.zipWith mkSlot cfgs sgSids ++ pool0.drop cfgs.length

/-- The global state mid-create: the chosen cell holds the opened subgroups
and bound endpoints, the named streams are attached, and one iso channel is
consumed per bound stream.  src' is the evolving source struct (cleanup
memsets it, so only its subgroup list matters to unwinding). -/
def midStateS (g0 : GState) (idx : Nat) (qos : QosCfg) (src' : SrcStruct)
    (cfgs : List CodecCfg) (sgSids : List (List Nat)) : GState :=
  { cells := g0.cells.set idx
      ⟨src', sgPoolMid (getCell g0 idx).sgPool cfgs sgSids, epPoolMid sgSids.flatten⟩,
    streams := streamsMid idx qos g0.streams sgSids.flatten 0,
    isoAvail := g0.isoAvail - sgSids.flatten.length }

/-- The observable per-cell state ignoring the subgroup slots' codec_cfg
pointers: the source struct, the slots' stream lists, and the endpoint
pool. -/
def cellShape (c : SrcCell) : SrcStruct × List (List Nat) × List Ep :=
  (c.src, c.sgPool.map (fun s => s.streams), c.epPool)

/-- Full restoration up to subgroup-slot codec_cfg pointers: stream table,
iso pool and every cell's shape equal the pre-call state. -/
def Restored (g0 g' : GState) : Prop :=
  g'.streams = g0.streams ∧ g'.isoAvail = g0.isoAvail ∧
  g'.cells.map cellShape = g0.cells.map cellShape

/-- A free source cell as this unit leaves it (module init, or any
cleanup): zero source struct, slots with empty stream lists, initialised
endpoints. -/
def freeCellWF (g0 : GState) (idx : Nat) : Prop :=
  idx < g0.cells.length ∧
  (getCell g0 idx).src = SrcStruct.zero ∧
  (getCell g0 idx).sgPool.length = SUBGROUP_COUNT ∧
  (∀ s ∈ (getCell g0 idx).sgPool, s.streams = []) ∧
  (getCell g0 idx).epPool = List.replicate BROADCAST_STREAM_CNT Ep.freeSlot

instance (g0 : GState) (idx : Nat) : Decidable (freeCellWF g0 idx) := by
  unfold freeCellWF
  exact inferInstance

/-- The stream objects handed to create: distinct, in range, unattached. -/
def sidsOk (g0 : GState) (sids : List Nat) : Prop :=
  sids.Nodup ∧
  ∀ sid ∈ sids, sid < g0.streams.length ∧ g0.streams.getD sid cleanStream = cleanStream

instance (g0 : GState) (sids : List Nat) : Decidable (sidsOk g0 sids) := by
  unfold sidsOk
  exact inferInstance

/-- All stream ids of a create parameter set, in global BIS order. -/
def paramSids (p : SourceParam) : List Nat :=
  (p.subgroup_params.map (fun sgp => sgp.stream_params.map (fun sp => sp.stream))).flatten

theorem set_getD_self {α : Type} :
    ∀ (l : List α) (i : Nat) (d : α), i < l.length → l.set i (l.getD i d) = l := by
  intro l
  induction l with
  | nil => intro i d h; simp at h
  | cons a l ih =>
      intro i d h
      cases i with
      | zero => rfl
      | succ n =>
          simp only [List.set_cons_succ, List.getD, List.getElem?_cons_succ]
          exact congrArg (List.cons a) (ih n d (by simpa using h))

theorem set_append_len {α : Type} :
    ∀ (A : List α) (b : α) (t : List α) (v : α),
      (A ++ b :: t).set A.length v = A ++ v :: t := by
  intro A
  induction A with
  | nil => intro b t v; rfl
  | cons a A ih =>
      intro b t v
      simp only [List.cons_append, List.length_cons, List.set_cons_succ]
      exact congrArg (List.cons a) (ih b t v)

theorem getD_append_len {α : Type} (A : List α) (b : α) (t : List α) (d : α) :
    (A ++ b :: t).getD A.length d = b := by
  rw [List.getD_append_right A (b :: t) d A.length (Nat.le_refl _)]
  simp

theorem getD_drop_zero {α : Type} :
    ∀ (l : List α) (n : Nat) (d : α), (l.drop n).getD 0 d = l.getD n d := by
  intro l
  induction l with
  | nil => intro n d; cases n <;> rfl
  | cons a l ih =>
      intro n d
      cases n with
      | zero => rfl
      | succ m => exact ih m d

theorem map_getD {α β : Type} (f : α → β) :
    ∀ (l : List α) (i : Nat) (d : α), (l.map f).getD i (f d) = f (l.getD i d) := by
  intro l
  induction l with
  | nil => intro i d; cases i <;> rfl
  | cons a l ih =>
      intro i d
      cases i with
      | zero => rfl
      | succ n => exact ih n d

theorem streamsMid_length (idx : Nat) (qos : QosCfg) :
    ∀ (sids : List Nat) (base : List BapStream) (n : Nat),
      (streamsMid idx qos base sids n).length = base.length := by
  intro sids
  induction sids with
  | nil => intro base n; rfl
  | cons s rest ih =>
      intro base n
      simp only [streamsMid]
      rw [ih]
      exact List.length_set base s _

theorem streamsMid_getD_not_mem (idx : Nat) (qos : QosCfg) :
    ∀ (sids : List Nat) (base : List BapStream) (n sid : Nat), sid ∉ sids →
      (streamsMid idx qos base sids n).getD sid cleanStream = base.getD sid cleanStream := by
  intro sids
  induction sids with
  | nil => intro base n sid _; rfl
  | cons s rest ih =>
      intro base n sid h
      have hs : sid ≠ s := fun hc => h (hc ▸ List.mem_cons_self s rest)
      have hr : sid ∉ rest := fun hc => h (List.mem_cons_of_mem s hc)
      simp only [streamsMid]
      rw [ih _ _ _ hr]
      exact getD_set_other _ _ _ _ _ (fun hc => hs hc.symm)

theorem streamsMid_set_not_mem (idx : Nat) (qos : QosCfg) :
    ∀ (sids : List Nat) (base : List BapStream) (n sid : Nat) (v : BapStream),
      sid ∉ sids →
      (streamsMid idx qos base sids n).set sid v = streamsMid idx qos (base.set sid v) sids n := by
  intro sids
  induction sids with
  | nil => intro base n sid v _; rfl
  | cons s rest ih =>
      intro base n sid v h
      have hs : sid ≠ s := fun hc => h (hc ▸ List.mem_cons_self s rest)
      have hr : sid ∉ rest := fun hc => h (List.mem_cons_of_mem s hc)
      simp only [streamsMid]
      rw [ih _ _ _ _ hr, List.set_comm _ _ _ (fun hc => hs hc.symm)]

theorem streamsMid_snoc (idx : Nat) (qos : QosCfg) :
    ∀ (sids : List Nat) (base : List BapStream) (n sid : Nat),
      streamsMid idx qos base (sids ++ [sid]) n =
        (streamsMid idx qos base sids n).set sid (mkStream idx (n + sids.length) qos) := by
  intro sids
  induction sids with
  | nil => intro base n sid; simp [streamsMid]
  | cons s rest ih =>
      intro base n sid
      simp only [List.cons_append, streamsMid, List.length_cons]
      have h1 : n + 1 + rest.length = n + (rest.length + 1) := by omega
      exact (ih (base.set s (mkStream idx n qos)) (n + 1) sid).trans (by rw [h1])

theorem epPoolMid_findIdx (sids : List Nat) (h : sids.length < BROADCAST_STREAM_CNT) :
    (epPoolMid sids).findIdx? (fun ep => ep.stream.isNone) = some sids.length := by
  unfold epPoolMid
  have hgen : ∀ (l : List Nat) (i : Nat),
      ((l.map mkEp ++ List.replicate (BROADCAST_STREAM_CNT - sids.length) Ep.freeSlot).findIdx?
        (fun ep => ep.stream.isNone) i) = some (i + l.length) := by
    intro l
    induction l with
    | nil =>
        intro i
        have hpos : 0 < BROADCAST_STREAM_CNT - sids.length := by omega
        cases hrep : BROADCAST_STREAM_CNT - sids.length with
        | zero => omega
        | succ m =>
            simp [List.replicate_succ, List.findIdx?_cons, mkEp, Ep.freeSlot]
    | cons s rest ih =>
        intro i
        simp only [List.map_cons, List.cons_append, List.findIdx?_cons, mkEp,
          Option.isNone_some, List.length_cons]
        rw [if_neg (by simp)]
        rw [ih (i + 1)]
        exact congrArg some (by omega)
  have := hgen sids 0
  rw [this]
  simp

theorem epPoolMid_set_free (sids : List Nat) (h : sids.length < BROADCAST_STREAM_CNT) :
    (epPoolMid sids).set sids.length Ep.freeSlot = epPoolMid sids := by
  unfold epPoolMid
  have hrep : BROADCAST_STREAM_CNT - sids.length = (BROADCAST_STREAM_CNT - sids.length - 1) + 1 := by
    omega
  rw [hrep, List.replicate_succ]
  have hlen : (sids.map mkEp).length = sids.length := List.length_map sids mkEp
  calc (sids.map mkEp ++ Ep.freeSlot :: List.replicate (BROADCAST_STREAM_CNT - sids.length - 1) Ep.freeSlot).set
        sids.length Ep.freeSlot
      = (sids.map mkEp ++ Ep.freeSlot :: List.replicate (BROADCAST_STREAM_CNT - sids.length - 1) Ep.freeSlot).set
        (sids.map mkEp).length Ep.freeSlot := by rw [hlen]
    _ = sids.map mkEp ++ Ep.freeSlot :: List.replicate (BROADCAST_STREAM_CNT - sids.length - 1) Ep.freeSlot :=
        set_append_len _ _ _ _

theorem epPoolMid_snoc (sids : List Nat) (sid : Nat) (h : sids.length < BROADCAST_STREAM_CNT) :
    (epPoolMid sids).set sids.length (mkEp sid) = epPoolMid (sids ++ [sid]) := by
  unfold epPoolMid
  have hrep : BROADCAST_STREAM_CNT - sids.length = (BROADCAST_STREAM_CNT - (sids.length + 1)) + 1 := by
    omega
  rw [hrep, List.replicate_succ]
  have hlen : (sids.map mkEp).length = sids.length := List.length_map sids mkEp
  calc (sids.map mkEp ++ Ep.freeSlot :: List.replicate (BROADCAST_STREAM_CNT - (sids.length + 1)) Ep.freeSlot).set
        sids.length (mkEp sid)
      = (sids.map mkEp ++ Ep.freeSlot :: List.replicate (BROADCAST_STREAM_CNT - (sids.length + 1)) Ep.freeSlot).set
        (sids.map mkEp).length (mkEp sid) := by rw [hlen]
    _ = sids.map mkEp ++ mkEp sid :: List.replicate (BROADCAST_STREAM_CNT - (sids.length + 1)) Ep.freeSlot :=
        set_append_len _ _ _ _
    _ = (sids ++ [sid]).map mkEp ++ List.replicate (BROADCAST_STREAM_CNT - (sids ++ [sid]).length) Ep.freeSlot := by
        simp [List.map_append]

theorem cleanup_inner_walk (idx : Nat) (qos : QosCfg) (base : List BapStream) :
    ∀ (S after : List Nat) (A R : List Ep) (iso : Nat),
      (S ++ after).Nodup →
      (∀ sid ∈ S ++ after, sid < base.length ∧ base.getD sid cleanStream = cleanStream) →
      S.foldl cleanupStream
        (streamsMid idx qos base (S ++ after) A.length,
         A ++ ((S ++ after).map mkEp ++ R), iso) =
      (streamsMid idx qos base after (A.length + S.length),
       (A ++ List.replicate S.length Ep.freeSlot) ++ (after.map mkEp ++ R),
       iso + S.length) := by
  intro S
  induction S with
  | nil =>
      intro after A R iso _ _
      simp
  | cons sid S' ih =>
      intro after A R iso hnd hclean
      obtain ⟨hlt, hcl⟩ := hclean sid (by simp)
      rw [List.cons_append] at hnd
      have hnd' : (S' ++ after).Nodup := hnd.of_cons
      have hnotmem : sid ∉ S' ++ after := (List.nodup_cons.mp hnd).1
      rw [List.cons_append, List.foldl_cons, List.map_cons]
      simp only [streamsMid]
      have hgetD : (streamsMid idx qos (base.set sid (mkStream idx A.length qos))
          (S' ++ after) (A.length + 1)).getD sid cleanStream = mkStream idx A.length qos := by
        rw [streamsMid_getD_not_mem _ _ _ _ _ _ hnotmem]
        exact getD_set_self _ _ _ _ hlt
      have hstep : cleanupStream
          (streamsMid idx qos (base.set sid (mkStream idx A.length qos)) (S' ++ after) (A.length + 1),
           A ++ ((mkEp sid :: (S' ++ after).map mkEp) ++ R), iso) sid =
          (streamsMid idx qos base (S' ++ after) (A.length + 1),
           (A ++ [Ep.freeSlot]) ++ ((S' ++ after).map mkEp ++ R), iso + 1) := by
        rw [List.cons_append]
        simp only [cleanupStream]
        rw [hgetD]
        simp only [mkStream]
        rw [streamsMid_set_not_mem _ _ _ _ _ _ _ hnotmem, List.set_set]
        rw [show (cleanStream : BapStream) = base.getD sid cleanStream from hcl.symm,
          set_getD_self _ _ _ hlt]
        rw [getD_append_len, set_append_len]
        simp [Ep.freeSlot, mkEp]
      rw [hstep]
      have hih := ih after (A ++ [Ep.freeSlot]) R (iso + 1) hnd'
        (fun s hs => hclean s (by rw [List.cons_append]; exact List.mem_cons_of_mem _ hs))
      simp only [List.length_append, List.length_cons, List.length_nil, Nat.add_zero,
        Nat.zero_add] at hih
      rw [hih]
      have e1 : A.length + 1 + S'.length = A.length + (S'.length + 1) := by omega
      have e2 : iso + 1 + S'.length = iso + (S'.length + 1) := by omega
      have e3 : (A ++ [Ep.freeSlot]) ++ List.replicate S'.length Ep.freeSlot =
          A ++ List.replicate (S'.length + 1) Ep.freeSlot := by
        rw [List.append_assoc]
        exact congrArg (fun l => A ++ l) (by simp [List.replicate_succ])
      rw [e1, e2, e3]
      simp

theorem cleanup_outer_walk (idx : Nat) (qos : QosCfg) (base : List BapStream) :
    ∀ (cfgs : List CodecCfg) (sgSids : List (List Nat)) (D T : List SubgroupSlot)
      (A R : List Ep) (iso : Nat),
      cfgs.length = sgSids.length →
      sgSids.flatten.Nodup →
      (∀ sid ∈ sgSids.flatten, sid < base.length ∧ base.getD sid cleanStream = cleanStream) →
      (List.range' D.length cfgs.length).foldl cleanupSubgroup
        (streamsMid idx qos base sgSids.flatten A.length,
         A ++ (sgSids.flatten.map mkEp ++ R),
         iso,
         D ++ (List.zipWith mkSlot cfgs sgSids ++ T)) =
      (base,
       (A ++ List.replicate sgSids.flatten.length Ep.freeSlot) ++ R,
       iso + sgSids.flatten.length,
       D ++ (cfgs.map (fun c => mkSlot c []) ++ T)) := by
  intro cfgs
  induction cfgs with
  | nil =>
      intro sgSids D T A R iso hlen _ _
      cases sgSids with
      | nil => simp [streamsMid]
      | cons S rest => simp at hlen
  | cons c cfgs' ih =>
      intro sgSids D T A R iso hlen hnd hclean
      cases sgSids with
      | nil => simp at hlen
      | cons S sgSids' =>
          simp only [List.length_cons] at hlen
          rw [List.flatten_cons] at hnd hclean
          have hnd' : sgSids'.flatten.Nodup := (List.nodup_append.mp hnd).2.1
          rw [List.length_cons, List.range'_succ, List.foldl_cons]
          have hsg : List.zipWith mkSlot (c :: cfgs') (S :: sgSids') =
              mkSlot c S :: List.zipWith mkSlot cfgs' sgSids' := List.zipWith_cons_cons
          rw [List.flatten_cons, hsg]
          have hstep : cleanupSubgroup
              (streamsMid idx qos base (S ++ sgSids'.flatten) A.length,
               A ++ ((S ++ sgSids'.flatten).map mkEp ++ R),
               iso,
               D ++ ((mkSlot c S :: List.zipWith mkSlot cfgs' sgSids') ++ T)) D.length =
              (streamsMid idx qos base sgSids'.flatten (A.length + S.length),
               (A ++ List.replicate S.length Ep.freeSlot) ++ (sgSids'.flatten.map mkEp ++ R),
               iso + S.length,
               (D ++ [mkSlot c []]) ++ (List.zipWith mkSlot cfgs' sgSids' ++ T)) := by
            rw [List.cons_append]
            simp only [cleanupSubgroup]
            rw [getD_append_len]
            have hin := cleanup_inner_walk idx qos base S sgSids'.flatten A R iso hnd hclean
            simp only [mkSlot]
            rw [hin, set_append_len]
            simp [mkSlot]
          rw [hstep]
          have hih := ih sgSids' (D ++ [mkSlot c []]) T (A ++ List.replicate S.length Ep.freeSlot)
            R (iso + S.length) (by omega) hnd'
            (fun s hs => hclean s (List.mem_append_right _ hs))
          simp only [List.length_append, List.length_cons, List.length_nil, Nat.add_zero,
            List.length_replicate] at hih
          rw [hih]
          have e2 : (A ++ List.replicate S.length Ep.freeSlot) ++
              List.replicate sgSids'.flatten.length Ep.freeSlot =
              A ++ List.replicate (S ++ sgSids'.flatten).length Ep.freeSlot := by
            rw [List.append_assoc]
            exact congrArg (fun l => A ++ l)
              (by rw [List.length_append, List.replicate_add])
          have e3 : iso + S.length + sgSids'.flatten.length =
              iso + (S ++ sgSids'.flatten).length := by
            rw [List.length_append]
            omega
          rw [e2, e3]
          simp [List.append_assoc]

/-- The state a failed create leaves behind: g0 with the chosen cell's
source struct zeroed (it already was), its opened subgroup slots emptied
but keeping the parameters' codec-config pointers, and everything else
restored. -/
def unwoundState (g0 : GState) (idx : Nat) (cfgs : List CodecCfg) : GState :=
  { cells := g0.cells.set idx
      ⟨SrcStruct.zero,
       cfgs.map (fun c => mkSlot c []) ++ (getCell g0 idx).sgPool.drop cfgs.length,
       (getCell g0 idx).epPool⟩,
    streams := g0.streams, isoAvail := g0.isoAvail }

theorem cleanup_midStateS (g0 : GState) (idx : Nat) (qos : QosCfg) (src' : SrcStruct)
    (cfgs : List CodecCfg) (sgSids : List (List Nat))
    (hWF : freeCellWF g0 idx)
    (hsubs : src'.subgroups = List.range cfgs.length)
    (hlen : cfgs.length = sgSids.length)
    (hsids : sidsOk g0 sgSids.flatten)
    (hcnt : sgSids.flatten.length ≤ BROADCAST_STREAM_CNT)
    (hiso : sgSids.flatten.length ≤ g0.isoAvail) :
    broadcast_source_cleanup (midStateS g0 idx qos src' cfgs sgSids) idx =
      unwoundState g0 idx cfgs := by
  obtain ⟨hidx, hsrc, hpl, hps, hep⟩ := hWF
  obtain ⟨hnd, hclean⟩ := hsids
  have hcell : getCell (midStateS g0 idx qos src' cfgs sgSids) idx =
      ⟨src', sgPoolMid (getCell g0 idx).sgPool cfgs sgSids, epPoolMid sgSids.flatten⟩ := by
    unfold getCell midStateS
    exact getD_set_self g0.cells idx _ _ hidx
  unfold broadcast_source_cleanup
  rw [hcell]
  show (let acc := src'.subgroups.foldl cleanupSubgroup
          ((midStateS g0 idx qos src' cfgs sgSids).streams, epPoolMid sgSids.flatten,
           (midStateS g0 idx qos src' cfgs sgSids).isoAvail,
           sgPoolMid (getCell g0 idx).sgPool cfgs sgSids)
        { cells := (midStateS g0 idx qos src' cfgs sgSids).cells.set idx
            { src := SrcStruct.zero, sgPool := acc.2.2.2, epPool := acc.2.1 },
          streams := acc.1, isoAvail := acc.2.2.1 }) = unwoundState g0 idx cfgs
  rw [hsubs, List.range_eq_range']
  have hw := cleanup_outer_walk idx qos g0.streams cfgs sgSids []
    ((getCell g0 idx).sgPool.drop cfgs.length) []
    (List.replicate (BROADCAST_STREAM_CNT - sgSids.flatten.length) Ep.freeSlot)
    (g0.isoAvail - sgSids.flatten.length) hlen hnd hclean
  simp only [List.nil_append, List.length_nil] at hw
  show (let acc := List.foldl cleanupSubgroup
          (streamsMid idx qos g0.streams sgSids.flatten 0, epPoolMid sgSids.flatten,
           g0.isoAvail - sgSids.flatten.length,
           sgPoolMid (getCell g0 idx).sgPool cfgs sgSids)
          (List.range' 0 cfgs.length)
        { cells := (g0.cells.set idx
            ⟨src', sgPoolMid (getCell g0 idx).sgPool cfgs sgSids, epPoolMid sgSids.flatten⟩).set idx
            { src := SrcStruct.zero, sgPool := acc.2.2.2, epPool := acc.2.1 },
          streams := acc.1, isoAvail := acc.2.2.1 }) = unwoundState g0 idx cfgs
  rw [show (epPoolMid sgSids.flatten : List Ep) =
        sgSids.flatten.map mkEp ++
          List.replicate (BROADCAST_STREAM_CNT - sgSids.flatten.length) Ep.freeSlot from rfl,
      show (sgPoolMid (getCell g0 idx).sgPool cfgs sgSids : List SubgroupSlot) =
        List.zipWith mkSlot cfgs sgSids ++ (getCell g0 idx).sgPool.drop cfgs.length from rfl]
  rw [hw]
  unfold unwoundState
  have heq1 : (List.replicate sgSids.flatten.length Ep.freeSlot ++
      List.replicate (BROADCAST_STREAM_CNT - sgSids.flatten.length) Ep.freeSlot : List Ep) =
      (getCell g0 idx).epPool := by
    rw [hep, ← List.replicate_add]
    exact congrArg (fun n => List.replicate n Ep.freeSlot) (by omega)
  have heq2 : g0.isoAvail - sgSids.flatten.length + sgSids.flatten.length = g0.isoAvail := by
    omega
  simp only [List.set_set, heq1, heq2]

theorem Restored_refl (g0 : GState) : Restored g0 g0 := ⟨rfl, rfl, rfl⟩

theorem restored_unwound (g0 : GState) (idx : Nat) (cfgs : List CodecCfg)
    (hWF : freeCellWF g0 idx) (hp : cfgs.length ≤ SUBGROUP_COUNT) :
    Restored g0 (unwoundState g0 idx cfgs) := by
  obtain ⟨hidx, hsrc, hpl, hps, hep⟩ := hWF
  refine ⟨rfl, rfl, ?_⟩
  unfold unwoundState
  show ((g0.cells.set idx _).map cellShape) = g0.cells.map cellShape
  rw [List.map_set]
  have hmap : (getCell g0 idx).sgPool.map (fun s => s.streams) =
      List.replicate SUBGROUP_COUNT ([] : List Nat) := by
    rw [List.eq_replicate]
    constructor
    · rw [List.length_map]; exact hpl
    · intro b hb
      obtain ⟨s, hs, hbs⟩ := List.mem_map.mp hb
      rw [← hbs]; exact hps s hs
  have hshape : cellShape
      ⟨SrcStruct.zero,
       cfgs.map (fun c => mkSlot c []) ++ (getCell g0 idx).sgPool.drop cfgs.length,
       (getCell g0 idx).epPool⟩ = cellShape (getCell g0 idx) := by
    unfold cellShape
    show (SrcStruct.zero,
        (cfgs.map (fun c => mkSlot c []) ++ (getCell g0 idx).sgPool.drop cfgs.length).map
          (fun s => s.streams),
        (getCell g0 idx).epPool) =
      ((getCell g0 idx).src, (getCell g0 idx).sgPool.map (fun s => s.streams),
        (getCell g0 idx).epPool)
    rw [hsrc, hmap, List.map_append, List.map_drop, hmap, List.drop_replicate]
    have hm1 : (cfgs.map (fun c => mkSlot c [])).map (fun s => s.streams) =
        List.replicate cfgs.length ([] : List Nat) := by
      rw [List.eq_replicate]
      constructor
      · rw [List.length_map, List.length_map]
      · intro b hb
        obtain ⟨s, hs, hbs⟩ := List.mem_map.mp hb
        obtain ⟨c, hc, hcs⟩ := List.mem_map.mp hs
        rw [← hbs, ← hcs]
        rfl
    rw [hm1, ← List.replicate_add]
    exact congrArg (fun l => (SrcStruct.zero, l, (getCell g0 idx).epPool))
      (congrArg (fun n => List.replicate n ([] : List Nat)) (by omega))
  rw [hshape]
  have hget : cellShape (getCell g0 idx) =
      (g0.cells.map cellShape).getD idx (cellShape SrcCell.init) := by
    unfold getCell
    exact (map_getD cellShape g0.cells idx SrcCell.init).symm
  rw [hget]
  exact set_getD_self _ _ _ (by rw [List.length_map]; exact hidx)

theorem getCell_mk (cells : List SrcCell) (streams : List BapStream) (iso : Nat)
    (idx : Nat) (c : SrcCell) (h : idx < cells.length) :
    getCell ⟨cells.set idx c, streams, iso⟩ idx = c := by
  unfold getCell
  exact getD_set_self cells idx c SrcCell.init h

theorem setCell_mk (cells : List SrcCell) (streams : List BapStream) (iso : Nat)
    (idx : Nat) (c c' : SrcCell) :
    setCell ⟨cells.set idx c, streams, iso⟩ idx c' = ⟨cells.set idx c', streams, iso⟩ := by
  unfold setCell
  simp only [List.set_set]

theorem midStateS_def (g0 : GState) (idx : Nat) (qos : QosCfg) (src' : SrcStruct)
    (cfgs : List CodecCfg) (sgSids : List (List Nat)) :
    midStateS g0 idx qos src' cfgs sgSids =
      ⟨g0.cells.set idx
        ⟨src', sgPoolMid (getCell g0 idx).sgPool cfgs sgSids, epPoolMid sgSids.flatten⟩,
       streamsMid idx qos g0.streams sgSids.flatten 0,
       g0.isoAvail - sgSids.flatten.length⟩ := rfl

theorem zipWith_mkSlot_len (cfgs : List CodecCfg) (sgSids : List (List Nat))
    (hlen : cfgs.length = sgSids.length) :
    (List.zipWith mkSlot cfgs sgSids).length = cfgs.length := by
  rw [List.length_zipWith, hlen, Nat.min_self]

theorem sgPoolMid_split (pool0 : List SubgroupSlot) (cfgs0 : List CodecCfg)
    (sgsDone : List (List Nat)) (cLast : CodecCfg) (cur : List Nat)
    (hlen : cfgs0.length = sgsDone.length) :
    sgPoolMid pool0 (cfgs0 ++ [cLast]) (sgsDone ++ [cur]) =
      List.zipWith mkSlot cfgs0 sgsDone ++
        (mkSlot cLast cur :: pool0.drop (cfgs0.length + 1)) := by
  unfold sgPoolMid
  rw [List.zipWith_append _ _ _ _ _ hlen, List.zipWith_cons_cons, List.zipWith_nil_left,
    List.append_assoc, List.length_append, List.length_cons, List.length_nil]
  simp

theorem sgPoolMid_getD_last (pool0 : List SubgroupSlot) (cfgs0 : List CodecCfg)
    (sgsDone : List (List Nat)) (cLast : CodecCfg) (cur : List Nat)
    (hlen : cfgs0.length = sgsDone.length) :
    (sgPoolMid pool0 (cfgs0 ++ [cLast]) (sgsDone ++ [cur])).getD cfgs0.length
      SubgroupSlot.empty = mkSlot cLast cur := by
  rw [sgPoolMid_split _ _ _ _ _ hlen,
    ← zipWith_mkSlot_len cfgs0 sgsDone hlen, getD_append_len]

theorem sgPoolMid_set_last (pool0 : List SubgroupSlot) (cfgs0 : List CodecCfg)
    (sgsDone : List (List Nat)) (cLast : CodecCfg) (cur cur' : List Nat)
    (hlen : cfgs0.length = sgsDone.length) :
    (sgPoolMid pool0 (cfgs0 ++ [cLast]) (sgsDone ++ [cur])).set cfgs0.length
      (mkSlot cLast cur') = sgPoolMid pool0 (cfgs0 ++ [cLast]) (sgsDone ++ [cur']) := by
  rw [sgPoolMid_split _ _ _ _ _ hlen, sgPoolMid_split _ _ _ _ _ hlen,
    ← zipWith_mkSlot_len cfgs0 sgsDone hlen, set_append_len]

theorem sgPoolMid_getD_next (pool0 : List SubgroupSlot) (cfgs : List CodecCfg)
    (sgSids : List (List Nat)) (hlen : cfgs.length = sgSids.length) :
    (sgPoolMid pool0 cfgs sgSids).getD cfgs.length SubgroupSlot.empty =
      pool0.getD cfgs.length SubgroupSlot.empty := by
  unfold sgPoolMid
  rw [List.getD_append_right _ _ _ _ (by rw [zipWith_mkSlot_len _ _ hlen]),
    zipWith_mkSlot_len _ _ hlen, Nat.sub_self, getD_drop_zero]

theorem sgPoolMid_open (pool0 : List SubgroupSlot) (cfgs : List CodecCfg)
    (sgSids : List (List Nat)) (c : CodecCfg)
    (hlen : cfgs.length = sgSids.length) (hp : cfgs.length < pool0.length)
    (hpool : ∀ s ∈ pool0, s.streams = []) :
    (sgPoolMid pool0 cfgs sgSids).set cfgs.length
      { pool0.getD cfgs.length SubgroupSlot.empty with codecCfg := some c } =
      sgPoolMid pool0 (cfgs ++ [c]) (sgSids ++ [[]]) := by
  have hsl : ({ pool0.getD cfgs.length SubgroupSlot.empty with codecCfg := some c }
      : SubgroupSlot) = mkSlot c [] := by
    have hmem : pool0.getD cfgs.length SubgroupSlot.empty ∈ pool0 := by
      rw [List.getD_eq_getElem pool0 SubgroupSlot.empty hp]
      exact List.getElem_mem _
    have hstr := hpool _ hmem
    unfold mkSlot
    show (⟨(pool0.getD cfgs.length SubgroupSlot.empty).streams, some c⟩ : SubgroupSlot) =
      ⟨[], some c⟩
    rw [hstr]
  rw [hsl]
  unfold sgPoolMid
  rw [List.drop_eq_getElem_cons hp, ← List.getD_eq_getElem pool0 SubgroupSlot.empty hp,
    ← zipWith_mkSlot_len cfgs sgSids hlen, set_append_len]
  rw [List.zipWith_append _ _ _ _ _ hlen, List.zipWith_cons_cons, List.zipWith_nil_left,
    List.append_assoc, List.length_append, List.length_cons, List.length_nil,
    zipWith_mkSlot_len cfgs sgSids hlen]
  rfl

theorem sgPoolMid_findIdx_aux :
    ∀ (cfgs : List CodecCfg) (sgSids : List (List Nat)) (pool0 : List SubgroupSlot) (i : Nat),
      cfgs.length = sgSids.length →
      (∀ S ∈ sgSids, S ≠ []) →
      (∀ s ∈ pool0, s.streams = []) →
      List.findIdx? (fun s => s.streams.isEmpty)
        (List.zipWith mkSlot cfgs sgSids ++ pool0.drop cfgs.length) i =
      (if pool0.length ≤ cfgs.length then none else some (i + cfgs.length)) := by
  intro cfgs
  induction cfgs with
  | nil =>
      intro sgSids pool0 i _ _ hpool
      cases pool0 with
      | nil => simp
      | cons p ps =>
          simp only [List.zipWith_nil_left, List.nil_append, List.length_nil, List.drop_zero,
            List.findIdx?_cons]
          rw [if_pos (by rw [hpool p (List.mem_cons_self _ _)]; rfl)]
          rw [if_neg (by simp)]
          simp
  | cons c cfgs' ihc =>
      intro sgSids pool0 i hlen hne hpool
      cases sgSids with
      | nil => simp at hlen
      | cons S sgSids' =>
          simp only [List.length_cons] at hlen
          simp only [List.zipWith_cons_cons, List.length_cons, List.cons_append,
            List.findIdx?_cons]
          rw [if_neg (by
            simp only [mkSlot]
            intro hc
            exact hne S (List.mem_cons_self _ _) (List.isEmpty_iff.mp hc))]
          have hd : pool0.drop (cfgs'.length + 1) = (List.drop 1 pool0).drop cfgs'.length := by
            rw [List.drop_drop]
            exact congrArg (fun n => pool0.drop n) (by omega)
          rw [hd, ihc sgSids' (List.drop 1 pool0) (i + 1) (by omega)
            (fun S' hS' => hne S' (List.mem_cons_of_mem _ hS'))
            (fun s hs => hpool s (List.mem_of_mem_drop hs))]
          by_cases hc : pool0.length ≤ cfgs'.length + 1
          · rw [if_pos hc, if_pos (by rw [List.length_drop]; omega)]
          · rw [if_neg hc, if_neg (by rw [List.length_drop]; omega)]
            exact congrArg some (by omega)

theorem streamsMid_snoc0 (idx : Nat) (qos : QosCfg) (base : List BapStream)
    (sids : List Nat) (sid : Nat) :
    streamsMid idx qos base (sids ++ [sid]) 0 =
      (streamsMid idx qos base sids 0).set sid
        ⟨some sids.length, some (.slot idx sids.length), some qos, none⟩ := by
  rw [streamsMid_snoc]
  exact congrArg (fun v => (streamsMid idx qos base sids 0).set sid v)
    (by simp [mkStream, Nat.zero_add])

theorem epPoolMid_snoc_lit (sids : List Nat) (sid : Nat)
    (h : sids.length < BROADCAST_STREAM_CNT) :
    (epPoolMid sids).set sids.length ⟨.idle, some sid, true⟩ = epPoolMid (sids ++ [sid]) :=
  epPoolMid_snoc sids sid h

theorem writeCfgSlot_midStateS (g0 : GState) (idx : Nat) (qos : QosCfg) (src' : SrcStruct)
    (cfgs : List CodecCfg) (sgSids : List (List Nat)) (bc : Nat) (c : CodecCfg)
    (hidx : idx < g0.cells.length) :
    writeCfgSlot (midStateS g0 idx qos src' cfgs sgSids) idx bc c =
      midStateS g0 idx qos
        { src' with codecCfgSlots := src'.codecCfgSlots.set bc c } cfgs sgSids := by
  unfold writeCfgSlot
  simp only [midStateS_def]
  simp only [getCell_mk _ _ _ _ _ hidx, setCell_mk]

theorem setup_stream_midStateS_noiso (g0 : GState) (idx : Nat) (qos : QosCfg)
    (src' : SrcStruct) (cfgs : List CodecCfg) (sgSids : List (List Nat)) (sid : Nat)
    (ref : CfgRef) (hidx : idx < g0.cells.length)
    (hm : sgSids.flatten.length < BROADCAST_STREAM_CNT)
    (hiso0 : g0.isoAvail - sgSids.flatten.length = 0) :
    broadcast_source_setup_stream (midStateS g0 idx qos src' cfgs sgSids) idx sid ref qos =
      (midStateS g0 idx qos src' cfgs sgSids, some .resourceExhausted) := by
  unfold broadcast_source_setup_stream
  simp only [midStateS_def]
  simp only [getCell_mk _ _ _ _ _ hidx]
  simp only [epPoolMid_findIdx sgSids.flatten hm]
  simp only [epPoolMid_set_free sgSids.flatten hm]
  simp only [setCell_mk]
  rw [if_pos hiso0]

theorem setup_stream_midStateS_ok (g0 : GState) (idx : Nat) (qos : QosCfg)
    (src' : SrcStruct) (cfgs : List CodecCfg) (sgSids : List (List Nat)) (sid : Nat)
    (ref : CfgRef)
    (hidx : idx < g0.cells.length)
    (hm : sgSids.flatten.length < BROADCAST_STREAM_CNT)
    (hiso : ¬ g0.isoAvail - sgSids.flatten.length = 0)
    (hnm : sid ∉ sgSids.flatten)
    (hcl : g0.streams.getD sid cleanStream = cleanStream) :
    broadcast_source_setup_stream (midStateS g0 idx qos src' cfgs sgSids) idx sid ref qos =
      (⟨g0.cells.set idx
          ⟨src', sgPoolMid (getCell g0 idx).sgPool cfgs sgSids,
           epPoolMid (sgSids.flatten ++ [sid])⟩,
        (streamsMid idx qos g0.streams sgSids.flatten 0).set sid
          ⟨some sgSids.flatten.length, some ref, some qos, none⟩,
        g0.isoAvail - sgSids.flatten.length - 1⟩, none) := by
  have hgd : (streamsMid idx qos g0.streams sgSids.flatten 0).getD sid cleanStream =
      cleanStream := by
    rw [streamsMid_getD_not_mem _ _ _ _ _ _ hnm]
    exact hcl
  unfold broadcast_source_setup_stream
  simp only [midStateS_def]
  simp only [getCell_mk _ _ _ _ _ hidx]
  simp only [epPoolMid_findIdx sgSids.flatten hm]
  simp only [epPoolMid_set_free sgSids.flatten hm]
  simp only [setCell_mk]
  rw [if_neg hiso]
  simp only [getCell_mk _ _ _ _ _ hidx, setCell_mk,
    epPoolMid_snoc_lit sgSids.flatten sid hm, hgd]
  rfl

theorem sgPoolMid_set_last_lit (pool0 : List SubgroupSlot) (cfgs0 : List CodecCfg)
    (sgsDone : List (List Nat)) (cLast : CodecCfg) (cur : List Nat) (sid : Nat)
    (hlen : cfgs0.length = sgsDone.length) :
    (sgPoolMid pool0 (cfgs0 ++ [cLast]) (sgsDone ++ [cur])).set cfgs0.length
      ⟨cur ++ [sid], some cLast⟩ =
      sgPoolMid pool0 (cfgs0 ++ [cLast]) (sgsDone ++ [cur ++ [sid]]) :=
  sgPoolMid_set_last pool0 cfgs0 sgsDone cLast cur (cur ++ [sid]) hlen

theorem createStreamsLoop_spec (g0 : GState) (idx : Nat) (qos : QosCfg)
    (hWF : freeCellWF g0 idx) :
    ∀ (params : List StreamParam) (src' : SrcStruct) (cfgs0 : List CodecCfg)
      (sgsDone : List (List Nat)) (cLast : CodecCfg) (cur : List Nat),
      src'.subgroups = List.range (cfgs0.length + 1) →
      cfgs0.length = sgsDone.length →
      cfgs0.length + 1 ≤ SUBGROUP_COUNT →
      sidsOk g0 ((sgsDone.flatten ++ cur) ++ params.map (fun sp => sp.stream)) →
      (sgsDone.flatten ++ cur).length + params.length ≤ BROADCAST_STREAM_CNT →
      (sgsDone.flatten ++ cur).length ≤ g0.isoAvail →
      (∀ gf sc' bc' eb,
        createStreamsLoop idx cfgs0.length cLast qos
          (midStateS g0 idx qos src' (cfgs0 ++ [cLast]) (sgsDone ++ [cur]))
          params (sgsDone.flatten ++ cur).length (sgsDone.flatten ++ cur).length =
          (gf, sc', bc', some eb) → Restored g0 gf) ∧
      (∀ gf sc' bc',
        createStreamsLoop idx cfgs0.length cLast qos
          (midStateS g0 idx qos src' (cfgs0 ++ [cLast]) (sgsDone ++ [cur]))
          params (sgsDone.flatten ++ cur).length (sgsDone.flatten ++ cur).length =
          (gf, sc', bc', none) →
        ∃ src'', gf = midStateS g0 idx qos src'' (cfgs0 ++ [cLast])
            (sgsDone ++ [cur ++ params.map (fun sp => sp.stream)]) ∧
          src''.subgroups = List.range (cfgs0.length + 1) ∧
          sc' = (sgsDone.flatten ++ (cur ++ params.map (fun sp => sp.stream))).length ∧
          bc' = sc' ∧
          (sgsDone.flatten ++ (cur ++ params.map (fun sp => sp.stream))).length ≤
            g0.isoAvail) := by
  intro params
  induction params with
  | nil =>
      intro src' cfgs0 sgsDone cLast cur hsubs hlen hp hsids hcnt hiso
      constructor
      · intro gf sc' bc' eb h
        simp only [createStreamsLoop] at h
        injection h with h1 h2
        injection h2 with h2 h3
        injection h3 with h3 h4
        exact absurd h4 (by simp)
      · intro gf sc' bc' h
        simp only [createStreamsLoop] at h
        injection h with h1 h2
        injection h2 with h2 h3
        injection h3 with h3 h4
        refine ⟨src', ?_, hsubs, ?_, ?_, ?_⟩
        · rw [← h1]
          simp
        · rw [← h2]
          simp
        · rw [← h3, ← h2]
        · simpa using hiso
  | cons sp rest ih =>
      intro src' cfgs0 sgsDone cLast cur hsubs hlen hp hsids hcnt hiso
      have hm : ¬ BROADCAST_STREAM_CNT ≤ (sgsDone.flatten ++ cur).length := by
        simp only [List.length_cons] at hcnt
        omega
      have hfl : (sgsDone ++ [cur]).flatten = sgsDone.flatten ++ cur := by
        simp [List.flatten_append]
      have hmlt : (sgsDone ++ [cur]).flatten.length < BROADCAST_STREAM_CNT := by
        rw [hfl]
        simp only [List.length_cons] at hcnt
        omega
      obtain ⟨hnd, hclean⟩ := hsids
      have hsplt := hclean sp.stream (by simp)
      have hnm : sp.stream ∉ (sgsDone ++ [cur]).flatten := by
        rw [hfl]
        intro hmem
        exact (List.nodup_append.mp hnd).2.2 hmem (by simp)
      have hndflat : (sgsDone ++ [cur]).flatten.Nodup := by
        rw [hfl]
        exact (List.nodup_append.mp hnd).1
      have hcleanflat : ∀ sid ∈ (sgsDone ++ [cur]).flatten,
          sid < g0.streams.length ∧ g0.streams.getD sid cleanStream = cleanStream := by
        rw [hfl]
        exact fun sid hs => hclean sid (List.mem_append_left _ hs)
      have hlen2 : (cfgs0 ++ [cLast]).length = (sgsDone ++ [cur]).length := by
        simp [hlen]
      have hsubs2 : ({ src' with
          codecCfgSlots := src'.codecCfgSlots.set (sgsDone.flatten ++ cur).length cLast } :
          SrcStruct).subgroups = List.range (cfgs0 ++ [cLast]).length := by
        simp only [List.length_append, List.length_cons, List.length_nil]
        exact hsubs
      have hp2 : (cfgs0 ++ [cLast]).length ≤ SUBGROUP_COUNT := by
        simp only [List.length_append, List.length_cons, List.length_nil]
        omega
      have hcnt2 : (sgsDone ++ [cur]).flatten.length ≤ BROADCAST_STREAM_CNT := by
        omega
      have hiso2 : (sgsDone ++ [cur]).flatten.length ≤ g0.isoAvail := by
        rw [hfl]
        exact hiso
      cases hres : update_codec_cfg_data cLast sp.data with
      | error e =>
          have hwr := writeCfgSlot_midStateS g0 idx qos src' (cfgs0 ++ [cLast])
            (sgsDone ++ [cur]) (sgsDone.flatten ++ cur).length cLast hWF.1
          have hclup := cleanup_midStateS g0 idx qos _ (cfgs0 ++ [cLast]) (sgsDone ++ [cur])
            hWF hsubs2 hlen2 ⟨hndflat, hcleanflat⟩ hcnt2 hiso2
          constructor
          · intro gf sc' bc' eb h
            simp only [createStreamsLoop, hres] at h
            rw [if_neg hm] at h
            simp only [hwr, hclup] at h
            injection h with h1 h2
            rw [← h1]
            exact restored_unwound g0 idx _ hWF hp2
          · intro gf sc' bc' h
            simp only [createStreamsLoop, hres] at h
            rw [if_neg hm] at h
            injection h with h1 h2
            injection h2 with h2 h3
            injection h3 with h3 h4
            exact absurd h4 (by simp)
      | ok resolved =>
          have hwr := writeCfgSlot_midStateS g0 idx qos src' (cfgs0 ++ [cLast])
            (sgsDone ++ [cur]) (sgsDone.flatten ++ cur).length resolved hWF.1
          have hsubs3 : ({ src' with
              codecCfgSlots := src'.codecCfgSlots.set (sgsDone.flatten ++ cur).length resolved } :
              SrcStruct).subgroups = List.range (cfgs0 ++ [cLast]).length := by
            simp only [List.length_append, List.length_cons, List.length_nil]
            exact hsubs
          by_cases hiso0 : g0.isoAvail - (sgsDone ++ [cur]).flatten.length = 0
          · have hsetup := setup_stream_midStateS_noiso g0 idx qos
              { src' with
                codecCfgSlots := src'.codecCfgSlots.set (sgsDone.flatten ++ cur).length resolved }
              (cfgs0 ++ [cLast]) (sgsDone ++ [cur]) sp.stream
              (.slot idx (sgsDone.flatten ++ cur).length) hWF.1 hmlt hiso0
            have hclup := cleanup_midStateS g0 idx qos _ (cfgs0 ++ [cLast]) (sgsDone ++ [cur])
              hWF hsubs3 hlen2 ⟨hndflat, hcleanflat⟩ hcnt2 hiso2
            constructor
            · intro gf sc' bc' eb h
              simp only [createStreamsLoop, hres] at h
              rw [if_neg hm] at h
              simp only [hwr, hsetup, hclup] at h
              injection h with h1 h2
              rw [← h1]
              exact restored_unwound g0 idx _ hWF hp2
            · intro gf sc' bc' h
              simp only [createStreamsLoop, hres] at h
              rw [if_neg hm] at h
              simp only [hwr, hsetup] at h
              injection h with h1 h2
              injection h2 with h2 h3
              injection h3 with h3 h4
              exact absurd h4 (by simp)
          · have hsetup := setup_stream_midStateS_ok g0 idx qos
              { src' with
                codecCfgSlots := src'.codecCfgSlots.set (sgsDone.flatten ++ cur).length resolved }
              (cfgs0 ++ [cLast]) (sgsDone ++ [cur]) sp.stream
              (.slot idx (sgsDone.flatten ++ cur).length) hWF.1 hmlt hiso0 hnm hsplt.2
            have hihargs := ih
              { src' with
                codecCfgSlots := src'.codecCfgSlots.set (sgsDone.flatten ++ cur).length resolved,
                streamData := src'.streamData.set (sgsDone.flatten ++ cur).length ⟨sp.data⟩ }
              cfgs0 sgsDone cLast (cur ++ [sp.stream])
              hsubs hlen hp
              (by
                have hsids2 : sidsOk g0
                    ((sgsDone.flatten ++ cur) ++ (sp :: rest).map (fun sp => sp.stream)) :=
                  ⟨hnd, hclean⟩
                simpa [List.append_assoc] using hsids2)
              (by
                simp only [List.length_append, List.length_cons, List.length_map,
                  List.length_nil] at hcnt ⊢
                omega)
              (by
                rw [hfl] at hiso0
                simp only [List.length_append, List.length_cons, List.length_nil] at hiso0 ⊢
                omega)
            constructor
            · intro gf sc' bc' eb h
              simp only [createStreamsLoop, hres] at h
              rw [if_neg hm] at h
              simp only [hwr, hsetup, getCell_mk _ _ _ _ _ hWF.1, setCell_mk, hfl,
                sgPoolMid_getD_last _ _ _ _ _ hlen, mkSlot,
                sgPoolMid_set_last_lit _ _ _ _ _ _ hlen,
                ← streamsMid_snoc0] at h
              refine hihargs.1 gf sc' bc' eb ?_
              have e1 : (sgsDone ++ [cur ++ [sp.stream]]).flatten =
                  (sgsDone.flatten ++ cur) ++ [sp.stream] := by
                simp [List.flatten_append, List.append_assoc]
              have e2 : (sgsDone.flatten ++ (cur ++ [sp.stream])).length =
                  (sgsDone.flatten ++ cur).length + 1 := by
                simp only [List.length_append, List.length_cons, List.length_nil]
                omega
              rw [midStateS_def, e1, e2]
              have e3 : g0.isoAvail - ((sgsDone.flatten ++ cur) ++ [sp.stream]).length =
                  g0.isoAvail - (sgsDone.flatten ++ cur).length - 1 := by
                simp only [List.length_append, List.length_cons, List.length_nil]
                omega
              rw [e3]
              exact h
            · intro gf sc' bc' h
              simp only [createStreamsLoop, hres] at h
              rw [if_neg hm] at h
              simp only [hwr, hsetup, getCell_mk _ _ _ _ _ hWF.1, setCell_mk, hfl,
                sgPoolMid_getD_last _ _ _ _ _ hlen, mkSlot,
                sgPoolMid_set_last_lit _ _ _ _ _ _ hlen,
                ← streamsMid_snoc0] at h
              have e1 : (sgsDone ++ [cur ++ [sp.stream]]).flatten =
                  (sgsDone.flatten ++ cur) ++ [sp.stream] := by
                simp [List.flatten_append, List.append_assoc]
              have e2 : (sgsDone.flatten ++ (cur ++ [sp.stream])).length =
                  (sgsDone.flatten ++ cur).length + 1 := by
                simp only [List.length_append, List.length_cons, List.length_nil]
                omega
              have e3 : g0.isoAvail - ((sgsDone.flatten ++ cur) ++ [sp.stream]).length =
                  g0.isoAvail - (sgsDone.flatten ++ cur).length - 1 := by
                simp only [List.length_append, List.length_cons, List.length_nil]
                omega
              obtain ⟨src'', hgf, hsub, hsc, hbc, hlniso⟩ := hihargs.2 gf sc' bc' (by
                rw [midStateS_def, e1, e2, e3]
                exact h)
              refine ⟨src'', ?_, hsub, ?_, hbc, ?_⟩
              · rw [hgf]
                simp [List.append_assoc]
              · rw [hsc]
                simp [List.append_assoc]
              · simpa [List.append_assoc] using hlniso

theorem sidsOk_append_left (g0 : GState) (a b : List Nat) (h : sidsOk g0 (a ++ b)) :
    sidsOk g0 a :=
  ⟨(List.nodup_append.mp h.1).1, fun s hs => h.2 s (List.mem_append_left _ hs)⟩

theorem createSubgroupsLoop_spec (g0 : GState) (idx : Nat) (qos : QosCfg)
    (hWF : freeCellWF g0 idx) :
    ∀ (sgps : List SubgroupParam) (src' : SrcStruct) (cfgs : List CodecCfg)
      (sgSids : List (List Nat)),
      src'.subgroups = List.range cfgs.length →
      cfgs.length = sgSids.length →
      cfgs.length ≤ SUBGROUP_COUNT →
      (∀ S ∈ sgSids, S ≠ []) →
      (∀ sgp ∈ sgps, sgp.stream_params ≠ []) →
      sidsOk g0 (sgSids.flatten ++
        (sgps.map (fun sgp => sgp.stream_params.map (fun sp => sp.stream))).flatten) →
      sgSids.flatten.length ≤ BROADCAST_STREAM_CNT →
      sgSids.flatten.length ≤ g0.isoAvail →
      ∀ gf eb,
        createSubgroupsLoop idx qos (midStateS g0 idx qos src' cfgs sgSids) sgps
          sgSids.flatten.length sgSids.flatten.length = (gf, some eb) →
        Restored g0 gf := by
  intro sgps
  induction sgps with
  | nil =>
      intro src' cfgs sgSids _ _ _ _ _ _ _ _ gf eb h
      simp only [createSubgroupsLoop] at h
      injection h with h1 h2
      exact absurd h2 (by simp)
  | cons sgp rest' ihs =>
      intro src' cfgs sgSids hsubs hlen hp hne hnep hsids hcnt hiso gf eb h
      have hcell : getCell (midStateS g0 idx qos src' cfgs sgSids) idx =
          ⟨src', sgPoolMid (getCell g0 idx).sgPool cfgs sgSids, epPoolMid sgSids.flatten⟩ := by
        rw [midStateS_def]
        exact getCell_mk _ _ _ _ _ hWF.1
      have hsetc : ∀ c' : SrcCell, setCell (midStateS g0 idx qos src' cfgs sgSids) idx c' =
          ⟨g0.cells.set idx c', streamsMid idx qos g0.streams sgSids.flatten 0,
           g0.isoAvail - sgSids.flatten.length⟩ := by
        intro c'
        rw [midStateS_def]
        exact setCell_mk _ _ _ _ _ _
      have hfi := sgPoolMid_findIdx_aux cfgs sgSids (getCell g0 idx).sgPool 0 hlen hne
        hWF.2.2.2.1
      rw [Nat.zero_add] at hfi
      have hfi2 : List.findIdx? (fun s => s.streams.isEmpty)
          (sgPoolMid (getCell g0 idx).sgPool cfgs sgSids) =
          (if (getCell g0 idx).sgPool.length ≤ cfgs.length then none
           else some cfgs.length) := hfi
      have hsidsL : sidsOk g0 sgSids.flatten := sidsOk_append_left _ _ _ hsids
      by_cases hfull : (getCell g0 idx).sgPool.length ≤ cfgs.length
      · have hclup := cleanup_midStateS g0 idx qos src' cfgs sgSids hWF hsubs hlen hsidsL
          hcnt hiso
        simp only [createSubgroupsLoop, hcell, hfi2, if_pos hfull, hclup] at h
        injection h with h1 h2
        rw [← h1]
        exact restored_unwound g0 idx cfgs hWF hp
      · have hlt : cfgs.length < (getCell g0 idx).sgPool.length := by omega
        have hplSUB : (getCell g0 idx).sgPool.length = SUBGROUP_COUNT := hWF.2.2.1
        have hsub1 : src'.subgroups ++ [cfgs.length] = List.range (cfgs.length + 1) := by
          rw [hsubs]
          exact (List.range_succ _).symm
        have hG1 : (⟨g0.cells.set idx
            ⟨{ src' with subgroups := List.range (cfgs.length + 1) },
             sgPoolMid (getCell g0 idx).sgPool (cfgs ++ [sgp.codec_cfg]) (sgSids ++ [[]]),
             epPoolMid sgSids.flatten⟩,
            streamsMid idx qos g0.streams sgSids.flatten 0,
            g0.isoAvail - sgSids.flatten.length⟩ : GState) =
            midStateS g0 idx qos { src' with subgroups := List.range (cfgs.length + 1) }
              (cfgs ++ [sgp.codec_cfg]) (sgSids ++ [[]]) := by
          rw [midStateS_def]
          have hfl0 : ((sgSids ++ [[]]) : List (List Nat)).flatten = sgSids.flatten := by
            simp
          rw [hfl0]
        simp only [createSubgroupsLoop, hcell, hfi2, if_neg hfull,
          sgPoolMid_getD_next _ _ _ hlen, sgPoolMid_open _ _ _ sgp.codec_cfg hlen hlt
            hWF.2.2.2.1, hsub1, hsetc, hG1] at h
        by_cases hbig : BROADCAST_STREAM_CNT < sgp.stream_params.length + sgSids.flatten.length
        · rw [if_pos hbig] at h
          have hclup1 := cleanup_midStateS g0 idx qos
            { src' with subgroups := List.range (cfgs.length + 1) }
            (cfgs ++ [sgp.codec_cfg]) (sgSids ++ [[]]) hWF
            (by simp) (by simp [hlen]) (by simpa using hsidsL) (by simpa using hcnt)
            (by simpa using hiso)
          rw [hclup1] at h
          injection h with h1 h2
          rw [← h1]
          exact restored_unwound g0 idx _ hWF (by simp; omega)
        · rw [if_neg hbig] at h
          have hL2 := createStreamsLoop_spec g0 idx qos hWF sgp.stream_params
            { src' with subgroups := List.range (cfgs.length + 1) }
            cfgs sgSids sgp.codec_cfg []
            (by simp) hlen (by omega)
            (by
              have hBig : sidsOk g0 ((sgSids.flatten ++
                  sgp.stream_params.map (fun sp => sp.stream)) ++
                  (rest'.map (fun sgp => sgp.stream_params.map (fun sp => sp.stream))).flatten) := by
                simpa [List.append_assoc] using hsids
              simpa using sidsOk_append_left _ _ _ hBig)
            (by simpa using (by omega : sgSids.flatten.length + sgp.stream_params.length ≤
              BROADCAST_STREAM_CNT))
            (by simpa using hiso)
          simp only [List.append_nil] at hL2
          rcases hcl2 : createStreamsLoop idx cfgs.length sgp.codec_cfg qos
            (midStateS g0 idx qos { src' with subgroups := List.range (cfgs.length + 1) }
              (cfgs ++ [sgp.codec_cfg]) (sgSids ++ [[]]))
            sgp.stream_params sgSids.flatten.length sgSids.flatten.length
            with ⟨g2, sc2, bc2, ores⟩
          rw [hcl2] at h
          cases ores with
          | some e2 =>
              simp only [Prod.mk.injEq] at h
              rw [← h.1]
              exact hL2.1 g2 sc2 bc2 e2 hcl2
          | none =>
              obtain ⟨src'', hgf2, hsub'', hsc2, hbc2, hlniso⟩ := hL2.2 g2 sc2 bc2 hcl2
              have hffl : ((sgSids ++ [sgp.stream_params.map (fun sp => sp.stream)]) :
                  List (List Nat)).flatten =
                  sgSids.flatten ++ sgp.stream_params.map (fun sp => sp.stream) := by
                simp
              have hih := ihs src'' (cfgs ++ [sgp.codec_cfg])
                (sgSids ++ [sgp.stream_params.map (fun sp => sp.stream)])
                (by simpa using hsub'')
                (by simp [hlen])
                (by simp only [List.length_append, List.length_cons, List.length_nil]; omega)
                (by
                  intro S hS
                  rcases List.mem_append.mp hS with hS1 | hS2
                  · exact hne S hS1
                  · rw [List.mem_singleton.mp hS2]
                    intro hnil
                    exact hnep sgp (List.mem_cons_self _ _) (List.map_eq_nil_iff.mp hnil)
                )
                (fun sgp' hsgp' => hnep sgp' (List.mem_cons_of_mem _ hsgp'))
                (by
                  rw [hffl]
                  simpa [List.append_assoc] using hsids)
                (by
                  rw [hffl]
                  simp only [List.length_append, List.length_map]
                  omega)
                (by
                  rw [hffl]
                  simpa using hlniso)
                gf eb
              rw [hffl] at hih
              rw [hgf2, hsc2] at h
              rw [hbc2, hsc2] at h
              exact hih h

theorem midStateS_nil (g0 : GState) (idx : Nat) (qos : QosCfg)
    (hWF : freeCellWF g0 idx) :
    g0 = midStateS g0 idx qos (getCell g0 idx).src [] [] := by
  obtain ⟨hidx, hsrc, hpl, hps, hep⟩ := hWF
  have h1 : (⟨(getCell g0 idx).src, sgPoolMid (getCell g0 idx).sgPool [] [],
      epPoolMid ([] : List (List Nat)).flatten⟩ : SrcCell) = getCell g0 idx := by
    show (⟨(getCell g0 idx).src, (getCell g0 idx).sgPool,
      List.replicate BROADCAST_STREAM_CNT Ep.freeSlot⟩ : SrcCell) = getCell g0 idx
    rw [← hep]
  have hcells : g0.cells.set idx
      ⟨(getCell g0 idx).src, sgPoolMid (getCell g0 idx).sgPool [] [],
       epPoolMid ([] : List (List Nat)).flatten⟩ = g0.cells := by
    rw [h1]
    show g0.cells.set idx (g0.cells.getD idx SrcCell.init) = g0.cells
    exact set_getD_self _ _ _ hidx
  rw [midStateS_def, hcells]
  rfl

theorem create_unfold_cases (g : GState) (p : SourceParam) :
    (bt_bap_broadcast_source_create g (some p) false = (.error .invalidArgument, g, some none)) ∨
    (bt_bap_broadcast_source_create g (some p) false =
      (.error .resourceExhausted, g, some none)) ∨
    (∃ idx e b g1, valid_broadcast_source_param g (some p) none = true ∧
      g.cells.findIdx? (fun c => c.src.subgroups.isEmpty) = some idx ∧
      createSubgroupsLoop idx (p.qos.getD default) g p.subgroup_params 0 0 = (g1, some (e, b)) ∧
      bt_bap_broadcast_source_create g (some p) false = (.error e, g1, some none)) ∨
    (∃ idx g1, bt_bap_broadcast_source_create g (some p) false = (.ok idx, g1, some (some idx))) := by
  unfold bt_bap_broadcast_source_create
  rw [if_neg (by simp : ¬(false = true))]
  split
  · next hv =>
      dsimp only
      split
      · exact .inr (.inl rfl)
      · next _ idx hfi =>
          split
          · next g1 e b hloop =>
              exact .inr (.inr (.inl ⟨idx, e, b, g1, hv, hfi, hloop, rfl⟩))
          · next g1 hloop =>
              exact .inr (.inr (.inr ⟨idx, _, rfl⟩))
  · exact .inl rfl

theorem valid_param_streams_nonempty (g : GState) (p : SourceParam)
    (hv : valid_broadcast_source_param g (some p) none = true) :
    ∀ sgp ∈ p.subgroup_params, sgp.stream_params ≠ [] := by
  intro sgp hm hnil
  unfold valid_broadcast_source_param at hv
  simp only [Bool.and_eq_true, List.all_eq_true] at hv
  have hsg := hv.2 sgp hm
  unfold valid_subgroup_param at hsg
  simp only [Bool.and_eq_true, decide_eq_true_eq] at hsg
  have h1 := hsg.1.1.1
  rw [hnil] at h1
  simp at h1

/-- Claim C1, corrected: if bt_bap_broadcast_source_create is called with
well-formed pools (every free source cell is in the canonical state this
unit's init and cleanup leave) and distinct, in-range, unattached stream
objects, then every error return leaves the stream table, the iso pool,
every source struct, every endpoint slot and every subgroup stream list
exactly as before the call (Restored); the claim's stronger byte-exact
equality fails only in the subgroup slots' codec_cfg pointers, which a
failed create leaves pointing at the caller's configs (see the
counterexample). -/
theorem create_failure_restores_pools (g0 : GState) (p : SourceParam)
    (hWF : ∀ i, i < g0.cells.length → (getCell g0 i).src.subgroups = [] → freeCellWF g0 i)
    (hsids : sidsOk g0 (paramSids p)) :
    ∀ e g' out, bt_bap_broadcast_source_create g0 (some p) false = (.error e, g', out) →
      Restored g0 g' := by
  intro e g' out h
  rcases create_unfold_cases g0 p with hc | hc |
    ⟨idx, e1, b1, g1, hv, hfi, hloop, hc⟩ | ⟨idx, g1, hc⟩
  · rw [hc] at h
    injection h with h1 h2
    injection h2 with h2 h3
    rw [← h2]
    exact Restored_refl g0
  · rw [hc] at h
    injection h with h1 h2
    injection h2 with h2 h3
    rw [← h2]
    exact Restored_refl g0
  · rw [hc] at h
    injection h with h1 h2
    injection h2 with h2 h3
    rw [← h2]
    obtain ⟨hidxlt, hfidx⟩ := List.findIdx?_eq_some_iff_findIdx_eq.mp hfi
    have hpred : (g0.cells.getD idx SrcCell.init).src.subgroups.isEmpty = true := by
      have hgd := @List.findIdx_getElem _ (fun c => c.src.subgroups.isEmpty)
        g0.cells (by rw [hfidx]; exact hidxlt)
      rw [List.getD_eq_getElem _ _ hidxlt]
      simp only [hfidx] at hgd
      exact hgd
    have hfree : (getCell g0 idx).src.subgroups = [] := List.isEmpty_iff.mp hpred
    have hWFi := hWF idx hidxlt hfree
    have hsubs0 : (getCell g0 idx).src.subgroups = List.range ([] : List CodecCfg).length := by
      rw [hfree]
      rfl
    have hloop2 : createSubgroupsLoop idx (p.qos.getD default)
        (midStateS g0 idx (p.qos.getD default) (getCell g0 idx).src [] [])
        p.subgroup_params
        ([] : List (List Nat)).flatten.length ([] : List (List Nat)).flatten.length =
        (g1, some (e1, b1)) := by
      rw [← midStateS_nil g0 idx (p.qos.getD default) hWFi]
      exact hloop
    exact createSubgroupsLoop_spec g0 idx (p.qos.getD default) hWFi p.subgroup_params
      (getCell g0 idx).src [] [] hsubs0 rfl (Nat.zero_le _)
      (by intro S hS; simp at hS)
      (valid_param_streams_nonempty g0 p hv)
      hsids (Nat.zero_le _) (Nat.zero_le _) g1 (e1, b1) hloop2
  · rw [hc] at h
    injection h with h1 _
    exact Except.noConfusion h1

/-- The pristine module state with the shared iso channel pool exhausted
(all bap_iso objects held elsewhere), so stream setup fails with -ENOMEM. -/
def gIso0 : GState := { gInit with isoAvail := 0 }

/-- Claim C1 counterexample: from a free source slot, a create call with
validation-accepted parameters that fails mid-loop (iso allocation
failure) runs broadcast_source_cleanup, which empties the opened subgroup
slot's stream list but leaves its codec_cfg pointing at the caller's
config; the global pool state after the failed call therefore does not
equal its pre-call state, refuting the claim's byte-exact restoration. -/
theorem create_failure_leaves_stale_subgroup_codec_cfg :
    valid_broadcast_source_param gIso0 (some pCreate) none = true ∧
    (bt_bap_broadcast_source_create gIso0 (some pCreate) false).1 =
      .error .resourceExhausted ∧
    (bt_bap_broadcast_source_create gIso0 (some pCreate) false).2.1 ≠ gIso0 ∧
    ((getCell (bt_bap_broadcast_source_create gIso0 (some pCreate) false).2.1 0).sgPool.getD 0
        SubgroupSlot.empty).codecCfg = some codecA ∧
    ((getCell gIso0 0).sgPool.getD 0 SubgroupSlot.empty).codecCfg = none := by
  decide

theorem create_failure_restores_pools_witness :
    sidsOk gIso0 (paramSids pCreate) ∧
    Restored gIso0 (bt_bap_broadcast_source_create gIso0 (some pCreate) false).2.1 :=
  ⟨by decide,
    create_failure_restores_pools gIso0 pCreate (by decide) (by decide)
      .resourceExhausted
      (bt_bap_broadcast_source_create gIso0 (some pCreate) false).2.1
      (bt_bap_broadcast_source_create gIso0 (some pCreate) false).2.2
      (by
        have h1 : (bt_bap_broadcast_source_create gIso0 (some pCreate) false).1 =
            .error .resourceExhausted := by decide
        calc bt_bap_broadcast_source_create gIso0 (some pCreate) false
            = ((bt_bap_broadcast_source_create gIso0 (some pCreate) false).1,
               (bt_bap_broadcast_source_create gIso0 (some pCreate) false).2.1,
               (bt_bap_broadcast_source_create gIso0 (some pCreate) false).2.2) := rfl
          _ = (.error .resourceExhausted,
               (bt_bap_broadcast_source_create gIso0 (some pCreate) false).2.1,
               (bt_bap_broadcast_source_create gIso0 (some pCreate) false).2.2) := by
              rw [h1])⟩

end BapBroadcastModel












